import Mathlib

/-!
# Verification of the XPBD cloth simulator and B-spline surface evaluator

Shallow embedding of the numerical core of the repository:

* `src/engine/simulator.py` — `ClothSimulator` (predict / wind / velocity / commit kernels,
  `step`, `reset`, `init_m_inv_l0`, `init_simulation_variables`);
* `src/engine/solver.py` — `XPBDSolver` (Gauss-Seidel distance-constraint sweeps,
  residual diagnostic, `apply_constraints`);
* `src/engine/b_spline_surface.py` — `BSplineSurface` (knot vectors, control-net
  reordering with seam padding, De Boor tensor-product evaluation).

`ti.f32` scalars are modelled as real numbers, `ti.math.vec3` as triples of reals.
Taichi fields indexed by `ti.i32` are modelled as total functions out of `ℕ`;
kernels that loop `for i in range(n)` only rewrite indices `i < n`.
Float literals appearing in the sources (`0.5`, `1e-6`, …) are exact binary
rationals, so the translation to `ℚ`/`ℝ` literals is exact.
-/

namespace Cloth

noncomputable section

open scoped Classical

/-- `ti.math.vec3`: a 3-component vector, modelled over `ℝ`. -/
abbrev V3 : Type := ℝ × ℝ × ℝ

/-- `ti.Vector.norm()`: Euclidean norm of a 3-vector. -/
def norm3 (a : V3) : ℝ := Real.sqrt (a.1 * a.1 + a.2.1 * a.2.1 + a.2.2 * a.2.2)

/-- `ti.Vector.dot`. -/
def dot3 (a b : V3) : ℝ := a.1 * b.1 + a.2.1 * b.2.1 + a.2.2 * b.2.2

/-- `ti.Vector.cross`. -/
def cross3 (a b : V3) : V3 :=
  (a.2.1 * b.2.2 - a.2.2 * b.2.1, a.2.2 * b.1 - a.1 * b.2.2, a.1 * b.2.1 - a.2.1 * b.1)

/-- Componentwise division of a vector by a scalar (`vec / s` in taichi). -/
def vdiv (a : V3) (c : ℝ) : V3 := (a.1 / c, a.2.1 / c, a.2.2 / c)

/-- `ti.Vector.normalized()` for vectors of provably nonzero norm (used by `apply_wind`
on unit-length directions).  The solver's normalization of a possibly-zero edge vector is
modelled separately (see `solve_edge`). -/
def normalized3 (a : V3) : V3 := vdiv a (norm3 a)

/-- The simulation state: the taichi fields and parameters held by `ClothSimulator`
(simulator.py).  `fixed i = 1.0` means movable, `0.0` means pinned. -/
structure SimState where
  num_vertices : ℕ
  num_edges : ℕ
  ti_edges : ℕ → ℕ × ℕ
  x0 : ℕ → V3
  x_cur : ℕ → V3
  x_tilde : ℕ → V3
  v : ℕ → V3
  dx : ℕ → V3
  dv : ℕ → V3
  nc : ℕ → ℝ
  fixed : ℕ → ℝ
  m_inv : ℕ → ℝ
  l0 : ℕ → ℝ
  dt : ℝ
  gravity : V3
  stretch_stiffness : ℝ
  bending_stiffness : ℝ
  num_substeps : ℕ
  enable_wind : Bool
  wind_strength : ℝ
  sim_frame : ℕ

/-- Kernel `init_m_inv_l0` (simulator.py lines 155-161): per-edge rest length from the rest
positions, accumulating half of each incident rest length into the endpoint `m_inv` entries.
Returns `(l0, m_inv)` starting from the zero-filled fields. -/
def init_m_inv_l0 (num_edges : ℕ) (ti_edges : ℕ → ℕ × ℕ) (x0 : ℕ → V3) :
    (ℕ → ℝ) × (ℕ → ℝ) :=
  (List.range num_edges).foldl
    (fun acc i =>
      let e := ti_edges i
      let len := norm3 (x0 e.1 - x0 e.2)
      let l0f := Function.update acc.1 i len
      let m1 := Function.update acc.2 e.1 (acc.2 e.1 + 0.5 * len)
      let m2 := Function.update m1 e.2 (m1 e.2 + 0.5 * len)
      (l0f, m2))
    (fun _ => 0, fun _ => 0)

/-- `ClothSimulator.init_simulation_variables` together with the `__init__` parameter
defaults (simulator.py lines 11-73, 103-131): `x0 = x_cur = x_tilde =` mesh vertices,
velocities and accumulators zero, every particle movable (`fixed = 1.0`), masses and rest
lengths from `init_m_inv_l0`, wind disabled with strength `50.0`, frame counter `0`. -/
def init_simulation_variables (num_vertices num_edges : ℕ)
    (ti_edges : ℕ → ℕ × ℕ) (ti_vertices : ℕ → V3)
    (dt : ℝ) (gravity : V3) (stretch_stiffness bending_stiffness : ℝ)
    (num_substeps : ℕ) : SimState :=
  let ml := init_m_inv_l0 num_edges ti_edges ti_vertices
  { num_vertices := num_vertices
    num_edges := num_edges
    ti_edges := ti_edges
    x0 := ti_vertices
    x_cur := ti_vertices
    x_tilde := ti_vertices
    v := fun _ => 0
    dx := fun _ => 0
    dv := fun _ => 0
    nc := fun _ => 0
    fixed := fun _ => 1
    m_inv := ml.2
    l0 := ml.1
    dt := dt
    gravity := gravity
    stretch_stiffness := stretch_stiffness
    bending_stiffness := bending_stiffness
    num_substeps := num_substeps
    enable_wind := false
    wind_strength := 50
    sim_frame := 0 }

/-- `ClothSimulator.reset` (simulator.py lines 143-150): restore `x_cur`/`x_tilde` from `x0`,
zero `v`, `dx`, `dv`, `nc` and the frame counter.  All other fields (in particular `fixed`)
are untouched. -/
def reset (s : SimState) : SimState :=
  { s with
    x_cur := s.x0
    x_tilde := s.x0
    v := fun _ => 0
    dx := fun _ => 0
    dv := fun _ => 0
    nc := fun _ => 0
    sim_frame := 0 }

/-- Kernel `predict_x_tilde` (simulator.py lines 163-167):
`x_tilde[i] = x_cur[i] + fixed[i] * (v[i]*dt + gravity*dt*dt)`. -/
def predict_x_tilde (s : SimState) : SimState :=
  { s with
    x_tilde := fun i =>
      if i < s.num_vertices then
        s.x_cur i + s.fixed i • (s.dt • s.v i + (s.dt * s.dt) • s.gravity)
      else s.x_tilde i }

/-- Kernel `apply_wind` (simulator.py lines 169-190).  The two `ti.random()` draws per
particle (angle and strength) are supplied by the stream `rng`; each draw lies in `[0, 1)`. -/
def apply_wind (rng : ℕ → ℝ × ℝ) (s : SimState) : SimState :=
  { s with
    x_tilde := fun i =>
      if i < s.num_vertices ∧ s.fixed i = 1 then
        let base_dir := normalized3 (1, 0.2, 0)
        let angle_offset := 3 * ((rng i).1 - 0.5)
        let k := normalized3 (0, 1, 0)
        let cos_theta := Real.cos angle_offset
        let sin_theta := Real.sin angle_offset
        let wind_dir := normalized3
          (cos_theta • base_dir + sin_theta • cross3 k base_dir +
            (dot3 k base_dir * (1 - cos_theta)) • k)
        let random_strength := s.wind_strength * (0.5 + (rng i).2)
        let wind_force := random_strength • wind_dir
        s.x_tilde i + (s.dt * s.dt) • wind_force
      else s.x_tilde i }

/-- Kernel `compute_v` (simulator.py lines 192-196):
`v[i] = fixed[i] * (x_tilde[i] - x_cur[i]) / dt`. -/
def compute_v (s : SimState) : SimState :=
  { s with
    v := fun i =>
      if i < s.num_vertices then s.fixed i • vdiv (s.x_tilde i - s.x_cur i) s.dt
      else s.v i }

/-- Kernel `update_x` (simulator.py lines 198-201): `x_cur[i] += fixed[i] * v[i] * dt`. -/
def update_x (s : SimState) : SimState :=
  { s with
    x_cur := fun i =>
      if i < s.num_vertices then s.x_cur i + (s.fixed i * s.dt) • s.v i
      else s.x_cur i }

/-- The Lagrange step of the distance-constraint projection (solver.py line 51):
`ld = compliance_stretch * C / (compliance_stretch * schur + 1.0)`. -/
def lagrange_step (compliance_stretch C schur : ℝ) : ℝ :=
  compliance_stretch * C / (compliance_stretch * schur + 1)

/-- Body of the per-edge loop of the kernel `solve_distance_constraints`
(solver.py lines 40-54).  When the current edge length `lij` is zero,
`x01.normalized()` computes `(1/0) * 0` componentwise, an IEEE non-finite value that is
then written into both endpoint positions (`0.0 * nan = nan`); this non-finite outcome is
modelled as `none`.  Otherwise the two endpoint writes are performed sequentially, exactly
as in the kernel. -/
def solve_edge (m_inv fixed : ℕ → ℝ) (compliance_stretch : ℝ)
    (edge : ℕ × ℕ) (l0 : ℝ) (pos : ℕ → V3) : Option (ℕ → V3) :=
  let v0 := edge.1
  let v1 := edge.2
  let x01 := pos v0 - pos v1
  let lij := norm3 x01
  if lij = 0 then none
  else
    let C := lij - l0
    let nabla_C := (1 / lij) • x01
    let schur := fixed v0 * m_inv v0 + fixed v1 * m_inv v1
    let ld := lagrange_step compliance_stretch C schur
    let pos1 := Function.update pos v0 (pos v0 - (fixed v0 * m_inv v0 * ld) • nabla_C)
    let pos2 := Function.update pos1 v1 (pos1 v1 + (fixed v1 * m_inv v1 * ld) • nabla_C)
    some pos2

set_option linter.unusedVariables false in
/-- Kernel `solve_distance_constraints` (solver.py lines 37-54): one serialized Gauss-Seidel
sweep over all edges in index order.  The second compliance parameter is declared by the
kernel but never read, exactly as in the source. -/
def solve_distance_constraints (num_edges : ℕ) (ti_edges : ℕ → ℕ × ℕ)
    (l0 : ℕ → ℝ) (m_inv fixed : ℕ → ℝ)
    (compliance_stretch compliance_bending : ℝ) (pos : ℕ → V3) : Option (ℕ → V3) :=
  (List.range num_edges).foldl
    (fun acc i => acc.bind (solve_edge m_inv fixed compliance_stretch (ti_edges i) (l0 i)))
    (some pos)

/-- Kernel `compute_constraint_residual` (solver.py lines 56-65):
`Σ ((‖x_tilde[v0] - x_tilde[v1]‖ - l0[i])²)` over all edges. -/
def compute_constraint_residual (num_edges : ℕ) (ti_edges : ℕ → ℕ × ℕ)
    (l0 : ℕ → ℝ) (pos : ℕ → V3) : ℝ :=
  (List.range num_edges).foldl
    (fun total i =>
      let e := ti_edges i
      let diff := norm3 (pos e.1 - pos e.2) - l0 i
      total + diff * diff)
    0

/-- One sweep of `solve_distance_constraints` acting on the simulator state (the kernel
reads and writes `self.simulator.x_tilde` and reads the other fields). -/
def solve_distance_constraints_state (cs cb : ℝ) (s : SimState) : Option SimState :=
  (solve_distance_constraints s.num_edges s.ti_edges s.l0 s.m_inv s.fixed cs cb
      s.x_tilde).map
    fun p => { s with x_tilde := p }

/-- The sweep loop of `XPBDSolver.apply_constraints` (solver.py lines 17-19):
`for _ in range(self.num_substeps): self.solve_distance_constraints(compliance_stretch)`.
Note that the loop count is the solver's constructor-time `num_substeps`. -/
def xpbd_sweeps (cs cb : ℝ) : ℕ → SimState → Option SimState
  | 0, s => some s
  | n + 1, s => (solve_distance_constraints_state cs cb s).bind (xpbd_sweeps cs cb n)

/-- Number of parameters of `XPBDSolver.apply_constraints` excluding `self`
(solver.py line 14: `def apply_constraints(self, stretch_stiffness, dt_sub)`). -/
def apply_constraints_num_params : ℕ := 2

/-- Number of positional arguments `ClothSimulator.step` passes to `apply_constraints`
(simulator.py line 138:
`self.xpbd_solver.apply_constraints(self.stretch_stiffness, self.bending_stiffness, self.num_substeps)`). -/
def step_apply_constraints_num_args : ℕ := 3

/-- Number of parameters of the kernel `solve_distance_constraints` excluding `self`
(solver.py line 38). -/
def solve_distance_constraints_num_params : ℕ := 2

/-- Number of arguments `apply_constraints` passes to `solve_distance_constraints`
(solver.py line 19: `self.solve_distance_constraints(compliance_stretch)`). -/
def apply_constraints_solve_num_args : ℕ := 1

/-- The `TypeError` message Python raises at simulator.py line 138 (a call whose positional
argument count differs from the callee's parameter count). -/
def apply_constraints_type_error : String :=
  "TypeError: apply_constraints() takes 3 positional arguments but 4 were given"

/-- `ClothSimulator.step` (simulator.py lines 133-141) as literally written:
predict, optional wind, then the solver invocation.  The solver invocation passes
`step_apply_constraints_num_args` positional arguments to a callable declaring
`apply_constraints_num_params` parameters (no defaults, no varargs), so Python raises
`TypeError` there and the remaining kernels never run. -/
def step (rng : ℕ → ℝ × ℝ) (s : SimState) : Except String SimState :=
  let s1 := predict_x_tilde s
  let s2 := if s.enable_wind then apply_wind rng s1 else s1
  if step_apply_constraints_num_args = apply_constraints_num_params then
    -- dead branch: the argument count at simulator.py:138 does not match solver.py:14
    Except.ok s2
  else
    Except.error apply_constraints_type_error

/-- The four-kernel frame update of `ClothSimulator.step`
(predict → optional wind → `num_substeps` Gauss-Seidel sweeps → `compute_v` → `update_x`,
then `sim_frame += 1`), with the two compliance arguments of the sweep kernel taken as
parameters: the literal solver invocation is ill-arity (see `step`), so the solve stage is
modelled directly on the kernels it runs, for an arbitrary compliance value. -/
def step_pipeline (cs cb : ℝ) (rng : ℕ → ℝ × ℝ) (s : SimState) : Option SimState :=
  let s1 := predict_x_tilde s
  let s2 := if s.enable_wind then apply_wind rng s1 else s1
  (xpbd_sweeps cs cb s.num_substeps s2).map fun s3 =>
    let s4 := update_x (compute_v s3)
    { s4 with sim_frame := s4.sim_frame + 1 }

/-- `n` consecutive frame updates, frame `k` drawing wind randomness from stream `rngs k`. -/
def step_trajectory (cs cb : ℝ) (rngs : ℕ → ℕ → ℝ × ℝ) : ℕ → SimState → Option SimState
  | 0, s => some s
  | n + 1, s => (step_pipeline cs cb (rngs n) s).bind (step_trajectory cs cb rngs n)

/-- `BSplineSurface.make_knot_vector_np` (b_spline_surface.py lines 110-129), over exact
rationals.  For the non-periodic (clamped) branch the value at index `i` is the last numpy
write that touches it: zeros from allocation and `knots[:order]`, then `knots[-order:] = 1`
(which, by Python slice semantics, covers indices `L-order … L-1` for `order ≥ 1` and the
whole array for `order = 0` since `-0 == 0`), then — only when `L - 2*order > 0` — the
interior loop overwrites `order ≤ i < L-order` with `(i - order + 1)/(L - 2*order + 1)`. -/
def make_knot_vector_np (n_ctrl order : ℕ) (periodic : Bool) : List ℚ :=
  if periodic then
    let L := n_ctrl + 2 * order - 1
    (List.range L).map fun i =>
      if i = L - 1 then 1 else if i = 0 then 0 else (i : ℚ) / ((L : ℚ) - 1)
  else
    let L := n_ctrl + order
    (List.range L).map fun i =>
      if 2 * order < L ∧ order ≤ i ∧ i < L - order then
        ((i : ℚ) - (order : ℚ) + 1) / ((L : ℚ) - 2 * (order : ℚ) + 1)
      else if order = 0 ∨ L - order ≤ i then 1 else 0

/-- The `BSplineSurface` object (b_spline_surface.py lines 7-72): grid sizes, orders,
topology flag and the flattened control-net field.  The taichi field
`control_net_field` has `(num_u + order_u - 1) * num_v` slots in the cylinder case and
`num_u * num_v` otherwise; it is modelled as a total function so that an out-of-range read
(undefined in taichi release mode) simply returns whatever the function yields there. -/
structure BSplineSurface where
  num_u : ℕ
  num_v : ℕ
  res_u : ℕ
  res_v : ℕ
  order_u : ℕ
  order_v : ℕ
  is_cylinder : Bool
  control_net_field : ℕ → V3

namespace BSplineSurface

/-- `self.U_np` (b_spline_surface.py lines 49-52): periodic knots for the cylinder,
clamped otherwise. -/
def U_np (b : BSplineSurface) : List ℚ :=
  make_knot_vector_np b.num_u b.order_u b.is_cylinder

/-- `self.V_np` (b_spline_surface.py line 53): always clamped. -/
def V_np (b : BSplineSurface) : List ℚ :=
  make_knot_vector_np b.num_v b.order_v false

/-- `self.num_U_knot`. -/
def num_U_knot (b : BSplineSurface) : ℕ := b.U_np.length

/-- `self.num_V_knot`. -/
def num_V_knot (b : BSplineSurface) : ℕ := b.V_np.length

/-- Read of the knot field `self.U[i]`. -/
def Uk (b : BSplineSurface) (i : ℕ) : ℝ := ((b.U_np.getD i 0 : ℚ) : ℝ)

/-- Read of the knot field `self.V[i]`. -/
def Vk (b : BSplineSurface) (i : ℕ) : ℝ := ((b.V_np.getD i 0 : ℚ) : ℝ)

/-- `find_knot_index_u` (b_spline_surface.py lines 182-193): `d = order_u - 1` for `u = 0`,
`d = num_U_knot - order_u` for `u = 1`, otherwise the last `i` in
`[order_u, num_U_knot - order_u)` with `U[i] ≤ u < U[i+1]`, defaulting to `order_u - 1`. -/
def find_knot_index_u (b : BSplineSurface) (u : ℝ) : ℕ :=
  if u = 0 then b.order_u - 1
  else if u = 1 then b.num_U_knot - b.order_u
  else
    (List.range' b.order_u (b.num_U_knot - b.order_u - b.order_u)).foldl
      (fun d i => if b.Uk i ≤ u ∧ u < b.Uk (i + 1) then i else d)
      (b.order_u - 1)

/-- `find_knot_index_u_periodic` (b_spline_surface.py lines 195-204): scan
`i ∈ [order_u - 1, num_u + order_u - 2)`, then clamp to the top span if
`U[num_u + order_u - 2] ≤ u`. -/
def find_knot_index_u_periodic (b : BSplineSurface) (u : ℝ) : ℕ :=
  let d :=
    (List.range' (b.order_u - 1) ((b.num_u + b.order_u - 2) - (b.order_u - 1))).foldl
      (fun d i => if b.Uk i ≤ u ∧ u < b.Uk (i + 1) then i else d)
      (b.order_u - 1)
  if b.Uk (b.num_u + b.order_u - 2) ≤ u then b.num_u + b.order_u - 2 else d

/-- `find_knot_index_v` (b_spline_surface.py lines 206-217). -/
def find_knot_index_v (b : BSplineSurface) (v : ℝ) : ℕ :=
  if v = 0 then b.order_v - 1
  else if v = 1 then b.num_V_knot - b.order_v
  else
    (List.range' b.order_v (b.num_V_knot - b.order_v - b.order_v)).foldl
      (fun d i => if b.Vk i ≤ v ∧ v < b.Vk (i + 1) then i else d)
      (b.order_v - 1)

end BSplineSurface

/-- The De Boor blend factor at inner-loop step `s` of a pass with multiplicity `r`
(b_spline_surface.py lines 251-252, 266-267): with `p = d - s`,
`denom = K[p+r-1] - K[p]` and `omega = (t - K[p])/denom if denom > 1e-6 else 0.0`. -/
def de_boor_omega (K : ℕ → ℝ) (t : ℝ) (d r s : ℕ) : ℝ :=
  let denom := K (d - s + r - 1) - K (d - s)
  if denom > 1e-6 then (t - K (d - s)) / denom else 0

/-- One pass (fixed `r`) of the De Boor inner recurrence (b_spline_surface.py lines
249-255): starting from `p = d`, `for s in range(r-1)`:
`D[s] = omega*D[s] + (1-omega)*D[s+1]`, `p -= 1`.  Step `s` reads `D[s+1]` before the next
step modifies it, so the pass maps the start-of-pass buffer pointwise; at step `s`,
`p = d - s`. -/
def de_boor_pass (K : ℕ → ℝ) (t : ℝ) (d r : ℕ) (D : ℕ → V3) : ℕ → V3 :=
  fun s =>
    if s < r - 1 then
      de_boor_omega K t d r s • D s + (1 - de_boor_omega K t d r s) • D (s + 1)
    else D s

/-- The pass loop `for r_offset in range(order - 2 + 1): r = order - r_offset`
(b_spline_surface.py lines 247, 262): `de_boor_passes K t d r D` performs the passes
`r, r-1, …, 2` in that order (none when `r ≤ 1`). -/
def de_boor_passes (K : ℕ → ℝ) (t : ℝ) (d : ℕ) : ℕ → (ℕ → V3) → ℕ → V3
  | 0, D => D
  | 1, D => D
  | r + 2, D => de_boor_passes K t d (r + 1) (de_boor_pass K t d (r + 2) D)

namespace BSplineSurface

/-- `de_boor_surface` (b_spline_surface.py lines 219-272): span search (with the cylinder
clamp of `u` into `[U[order_u-1], U[num_u+order_u-2]]`), gather of the local
`order_u × order_v` buffer at rows `d_u - i`, columns `d_v - j` of the flattened net,
the v-direction recurrence per row, then the u-direction recurrence.  The buffers `C`/`D`
are zero-initialized `MAX_ORDER`-row matrices; entries at `i ≥ order_u` (resp.
`j ≥ order_v`) keep their zeros. -/
def de_boor_surface (b : BSplineSurface) (u v : ℝ) : V3 :=
  let uc :=
    if b.is_cylinder then
      max (b.Uk (b.order_u - 1)) (min u (b.Uk (b.num_u + b.order_u - 2)))
    else u
  let d_u :=
    if b.is_cylinder then b.find_knot_index_u_periodic uc else b.find_knot_index_u uc
  let d_v := b.find_knot_index_v v
  let C : ℕ → V3 := fun i =>
    if i < b.order_u then
      let D : ℕ → V3 := fun j =>
        if j < b.order_v then b.control_net_field ((d_u - i) * b.num_v + (d_v - j))
        else 0
      de_boor_passes b.Vk v d_v b.order_v D 0
    else 0
  de_boor_passes b.Uk uc d_u b.order_u C 0

/-- Kernel `evaluate_surface` (b_spline_surface.py lines 169-180): sample
`(u, v) = (i/(res_u-1), j/(res_v-1))` at flat output index `idx = i*res_v + j`. -/
def evaluate_surface (b : BSplineSurface) (idx : ℕ) : V3 :=
  let i := idx / b.res_v
  let j := idx % b.res_v
  b.de_boor_surface ((i : ℝ) / ((b.res_u : ℝ) - 1)) ((j : ℝ) / ((b.res_v : ℝ) - 1))

end BSplineSurface

/-- Python `int(round(x))` for a real-valued `x` held exactly as a rational:
`round` ties to even. -/
def py_round (q : ℚ) : ℤ :=
  let f := ⌊q⌋
  let r := q - (f : ℚ)
  if r < 1/2 then f else if 1/2 < r then f + 1 else if f % 2 = 0 then f else f + 1

/-- The bucket-scatter loop shared by both branches of `reorder_control_net_np`
(b_spline_surface.py lines 79-83 and 102-106): each particle is written into grid cell
`(row, col) = (round(u*(num_u-1)), round(v*(num_v-1)))` of the flattened net, last write
winning.  The per-particle `(u, v)` coordinates lie in `[0,1]²` (spec §6), so the computed
flat index is within the allocated net. -/
def reorder_base_fill (num_u num_v : ℕ) (verts : List V3) (uv : List (ℚ × ℚ))
    (g : ℕ → V3) : ℕ → V3 :=
  (verts.zip uv).foldl
    (fun h p =>
      let row := (py_round (p.2.1 * ((num_u : ℚ) - 1))).toNat
      let col := (py_round (p.2.2 * ((num_v : ℚ) - 1))).toNat
      Function.update h (row * num_v + col) p.1)
    g

/-- A loop `for j in range(count): net[dstBase + j] = net[srcBase + j]` of sequential
cell copies. -/
def copy_cells (dstBase srcBase count : ℕ) (g : ℕ → V3) : ℕ → V3 :=
  (List.range count).foldl (fun h j => Function.update h (dstBase + j) (h (srcBase + j))) g

/-- `reorder_control_net_np`, cylinder branch (b_spline_surface.py lines 78-98): the base
bucket fill, then the seam copy `net[0*num_v + i] = net[(num_u-1)*num_v + i]` for each
column `i`, then for `i = 1 … order_u-1` the padding copy
`net[(num_u-1+i)*num_v + j] = net[i*num_v + j]` for each column `j`. -/
def reorder_control_net_np_cyl (num_u num_v order_u : ℕ)
    (verts : List V3) (uv : List (ℚ × ℚ)) : ℕ → V3 :=
  let base := reorder_base_fill num_u num_v verts uv fun _ => 0
  let seamed := copy_cells 0 ((num_u - 1) * num_v) num_v base
  (List.range' 1 (order_u - 1)).foldl
    (fun h i => copy_cells ((num_u - 1 + i) * num_v) (i * num_v) num_v h)
    seamed

/-- Allocated slot count of the cylinder control net
(b_spline_surface.py lines 41-42): `(num_u + order_u - 1) * num_v`. -/
def cyl_control_net_size (num_u num_v order_u : ℕ) : ℕ :=
  (num_u + order_u - 1) * num_v

/-! ### Concrete test fixtures (used by witnesses and counterexamples) -/

/-- A one-particle, zero-edge system built by the constructor with the parameters `main.py`
uses (`dt = 0.03`, gravity `(0, -9.8, 0)`, stiffness `5e5`), one substep. -/
def demoState : SimState :=
  init_simulation_variables 1 0 (fun _ => (0, 1)) (fun _ => 0) (3 / 100) (0, -49 / 5, 0)
    500000 500000 1

/-- The demo system with its particle pinned (as `fix_selected_particles` in main.py
does). -/
def pinnedDemo : SimState := { demoState with fixed := fun _ => 0 }

/-- Edge-endpoint positions with the two vertices `2` apart on the x-axis. -/
def pinned_edge_pos : ℕ → V3 := fun i => if i = 0 then (2, 0, 0) else 0

/-- Edge table of a 3-particle chain: edges `(0,1)` and `(1,2)`. -/
def chain_edges : ℕ → ℕ × ℕ := fun i => if i = 0 then (0, 1) else (1, 2)

/-- Chain rest positions `0, 1, 2` on the x-axis (unit rest lengths). -/
def chain_x0 : ℕ → V3 := fun i => ((i : ℝ), 0, 0)

/-- Chain pin flags: both ends pinned, the middle particle movable. -/
def chain_fixed : ℕ → ℝ := fun i => if i = 1 then 1 else 0

/-- Chain rest lengths, as produced by `init_m_inv_l0` from `chain_x0`. -/
def chain_l0 : ℕ → ℝ := fun i => if i < 2 then 1 else 0

/-- Chain inverse masses, as produced by `init_m_inv_l0` from `chain_x0`. -/
def chain_m_inv : ℕ → ℝ :=
  fun i => if i = 0 then 1 / 2 else if i = 1 then 1 else if i = 2 then 1 / 2 else 0

/-- The stretched chain configuration fed to the sweeps: positions `0, -1, -3` on the
x-axis. -/
def chain_pos : ℕ → V3 :=
  fun i => if i = 0 then 0 else if i = 1 then (-1, 0, 0) else (-3, 0, 0)

/-- The chain after one full Gauss-Seidel sweep at compliance 1: `(0, -3/2, -3)`. -/
def chain_pos1 : ℕ → V3 :=
  fun i => if i = 0 then 0 else if i = 1 then (-(3 / 2), 0, 0) else (-3, 0, 0)

/-- The chain during the second sweep, after its first edge: `(0, -5/4, -3)`. -/
def chain_pos2a : ℕ → V3 :=
  fun i => if i = 0 then 0 else if i = 1 then (-(5 / 4), 0, 0) else (-3, 0, 0)

/-- The chain after two full Gauss-Seidel sweeps at compliance 1: `(0, -13/8, -3)`. -/
def chain_pos2 : ℕ → V3 :=
  fun i => if i = 0 then 0 else if i = 1 then (-(13 / 8), 0, 0) else (-3, 0, 0)

/-- All-pinned flag field. -/
def pinned_flags : ℕ → ℝ := fun _ => 0

/-- A single-edge table: every index maps to the edge `(0, 1)`. -/
def edge01 : ℕ → ℕ × ℕ := fun _ => (0, 1)

/-- Unit rest lengths. -/
def unit_l0 : ℕ → ℝ := fun _ => 1

/-- A 4×4, order-4 clamped test surface with distinguishable control points. -/
def corner_surface : BSplineSurface :=
  { num_u := 4
    num_v := 4
    res_u := 8
    res_v := 8
    order_u := 4
    order_v := 4
    is_cylinder := false
    control_net_field := fun idx => ((idx : ℝ), 1, 0) }

end

/-! ## Basic vector lemmas -/

theorem norm3_nonneg (a : V3) : 0 ≤ norm3 a := Real.sqrt_nonneg _

theorem norm3_zero : norm3 (0 : V3) = 0 := by
  simp [norm3]

theorem norm3_x (a : ℝ) : norm3 (a, 0, 0) = |a| := by
  simp only [norm3]
  rw [show a * a + 0 * 0 + 0 * 0 = a * a by ring, Real.sqrt_mul_self_eq_abs]

theorem norm3_smul (c : ℝ) (a : V3) : norm3 (c • a) = |c| * norm3 a := by
  simp only [norm3, Prod.smul_fst, Prod.smul_snd, smul_eq_mul]
  rw [show c * a.1 * (c * a.1) + c * a.2.1 * (c * a.2.1) + c * a.2.2 * (c * a.2.2) =
      c ^ 2 * (a.1 * a.1 + a.2.1 * a.2.1 + a.2.2 * a.2.2) by ring]
  rw [Real.sqrt_mul (sq_nonneg c), Real.sqrt_sq_eq_abs]

/-! ## C10: reset -/

/-- C10: `ClothSimulator.reset()` restores `x_cur` and `x_tilde` to `x0`, zeroes `v`, `dx`,
`dv`, `nc` and the frame counter, and leaves the per-particle pin flags (`fixed`)
unchanged — in contrast to a freshly constructed system, whose `fixed` field is filled
with `1.0` (all particles movable). -/
theorem reset_restores_state_keeps_pins (s : SimState)
    (nv ne : ℕ) (edges : ℕ → ℕ × ℕ) (verts : ℕ → V3)
    (dt : ℝ) (g : V3) (ks kb : ℝ) (nsub : ℕ) :
    (reset s).x_cur = s.x0 ∧ (reset s).x_tilde = s.x0 ∧
    (reset s).v = (fun _ => 0) ∧ (reset s).dx = (fun _ => 0) ∧
    (reset s).dv = (fun _ => 0) ∧ (reset s).nc = (fun _ => 0) ∧
    (reset s).sim_frame = 0 ∧
    (reset s).fixed = s.fixed ∧ (reset s).x0 = s.x0 ∧
    (init_simulation_variables nv ne edges verts dt g ks kb nsub).fixed = fun _ => 1 :=
  ⟨rfl, rfl, rfl, rfl, rfl, rfl, rfl, rfl, rfl, rfl⟩

/-! ## C1: the solver invocation in `step` -/

/-- C1 (code bug): `ClothSimulator.step` does not run `num_substeps` sweeps with compliance
`stiffness * (dt/num_substeps)²` — the call at simulator.py line 138 passes three positional
arguments to `apply_constraints`, which declares two parameters, so every `step()` raises
`TypeError` at the solver invocation (and, independently, `apply_constraints` itself passes
one argument to the two-parameter kernel `solve_distance_constraints`). -/
theorem step_solver_call_ill_arity :
    step_apply_constraints_num_args ≠ apply_constraints_num_params ∧
    apply_constraints_solve_num_args ≠ solve_distance_constraints_num_params ∧
    ∀ (rng : ℕ → ℝ × ℝ) (s : SimState),
      step rng s = Except.error apply_constraints_type_error := by
  refine ⟨by decide, by decide, fun rng s => ?_⟩
  simp [step, step_apply_constraints_num_args, apply_constraints_num_params]

/-! ## C3: the `schur = 0` case of a projection -/

/-- C3 is false as stated: with both endpoints pinned (`fixed = 0`, inverse masses `1/2`)
so that `schur = 0·(1/2) + 0·(1/2) = 0`, and a stretched edge (length 2, rest length 1) at
compliance 1, the Lagrange step the kernel computes is `α̃·C/(α̃·0 + 1) = 1`, not `0`. -/
theorem lagrange_step_schur_zero_counterexample :
    (0 : ℝ) * (1 / 2) + 0 * (1 / 2) = 0 ∧
    lagrange_step 1 (norm3 (((2 : ℝ), 0, 0) - 0) - 1) ((0 : ℝ) * (1 / 2) + 0 * (1 / 2)) = 1 ∧
    (1 : ℝ) ≠ 0 := by
  refine ⟨by norm_num, ?_, one_ne_zero⟩
  rw [sub_zero, norm3_x]
  norm_num [lagrange_step]

/-- C3 amended: when `schur = 0` the denominator `α̃·schur + 1` equals `1`, so the division
is defined without any guard and the Lagrange step is `α̃·C` (not `0`); the projection is
nevertheless a zero-contribution no-op on the positions, because the two endpoint update
coefficients `fixed[v]·m_inv[v]` are nonnegative and sum to `schur = 0`, hence are both
zero.  (The zero-length case is treated separately, see C4.) -/
theorem solve_edge_schur_zero_zero_contribution
    (m_inv fixed : ℕ → ℝ) (cs l0 : ℝ) (e : ℕ × ℕ) (pos : ℕ → V3)
    (h0 : 0 ≤ fixed e.1 * m_inv e.1) (h1 : 0 ≤ fixed e.2 * m_inv e.2)
    (hs : fixed e.1 * m_inv e.1 + fixed e.2 * m_inv e.2 = 0)
    (hl : norm3 (pos e.1 - pos e.2) ≠ 0) :
    cs * (fixed e.1 * m_inv e.1 + fixed e.2 * m_inv e.2) + 1 = 1 ∧
    solve_edge m_inv fixed cs e l0 pos = some pos := by
  have e0 : fixed e.1 * m_inv e.1 = 0 := by linarith
  have e1 : fixed e.2 * m_inv e.2 = 0 := by linarith
  refine ⟨by rw [hs]; ring, ?_⟩
  simp only [solve_edge]
  rw [if_neg hl]
  rw [e0, e1]
  simp [Function.update_eq_self]

/-- C3 witness: the amended statement at a concrete edge with both endpoints pinned. -/
theorem solve_edge_schur_zero_witness :
    (0 : ℝ) ≤ chain_fixed 0 * chain_m_inv 0 ∧
    (0 : ℝ) ≤ chain_fixed 2 * chain_m_inv 2 ∧
    chain_fixed 0 * chain_m_inv 0 + chain_fixed 2 * chain_m_inv 2 = 0 ∧
    norm3 (pinned_edge_pos 0 - pinned_edge_pos 2) ≠ 0 ∧
    solve_edge chain_m_inv chain_fixed 1 (0, 2) 1 pinned_edge_pos = some pinned_edge_pos := by
  have h0 : (0 : ℝ) ≤ chain_fixed 0 * chain_m_inv 0 := by
    norm_num [chain_fixed, chain_m_inv]
  have h2 : (0 : ℝ) ≤ chain_fixed 2 * chain_m_inv 2 := by
    norm_num [chain_fixed, chain_m_inv]
  have hs : chain_fixed 0 * chain_m_inv 0 + chain_fixed 2 * chain_m_inv 2 = 0 := by
    norm_num [chain_fixed, chain_m_inv]
  have hl : norm3 (pinned_edge_pos 0 - pinned_edge_pos 2) ≠ 0 := by
    have e : pinned_edge_pos 0 - pinned_edge_pos 2 = ((2 : ℝ), 0, 0) := by
      simp only [pinned_edge_pos]
      norm_num
    rw [e, norm3_x]
    norm_num
  exact ⟨h0, h2, hs, hl,
    (solve_edge_schur_zero_zero_contribution chain_m_inv chain_fixed 1 1 (0, 2)
      pinned_edge_pos h0 h2 hs hl).2⟩

/-! ## C4: the zero-length case of a projection -/

/-- C4 is false as stated: for an edge whose endpoints coincide (current length `lij = 0`,
as produced by a degenerate mesh with duplicated vertices), the projection is not a no-op —
`x01.normalized()` divides by zero and both endpoints receive non-finite values (the `none`
outcome), rather than the positions being left unchanged (`some` of the input). -/
theorem solve_edge_zero_length_counterexample :
    solve_edge (fun _ => 0) (fun _ => 0) 1 (0, 1) 0 (fun _ => 0) = none ∧
    solve_edge (fun _ => 0) (fun _ => 0) 1 (0, 1) 0 (fun _ => 0) ≠
      some (fun _ => (0 : V3)) := by
  have hz : solve_edge (fun _ => (0 : ℝ)) (fun _ => (0 : ℝ)) 1 (0, 1) 0
      (fun _ => (0 : V3)) = none := by
    simp [solve_edge, norm3_zero]
  exact ⟨hz, by rw [hz]; exact fun h => Option.noConfusion h⟩

/-- C4 amended: the kernel has no zero-length guard.  Whenever the current edge length is
zero the projection produces a non-finite result (modelled `none`) that overwrites both
endpoints — a caller precondition violation (spec §7) — and whenever the length is nonzero
the projection is a defined (`some`) update. -/
theorem solve_edge_zero_length_non_finite (m_inv fixed : ℕ → ℝ) (cs l0 : ℝ)
    (e : ℕ × ℕ) (pos : ℕ → V3) :
    (norm3 (pos e.1 - pos e.2) = 0 → solve_edge m_inv fixed cs e l0 pos = none) ∧
    (norm3 (pos e.1 - pos e.2) ≠ 0 →
      (solve_edge m_inv fixed cs e l0 pos).isSome = true) := by
  constructor
  · intro h
    simp only [solve_edge]
    rw [if_pos h]
  · intro h
    simp only [solve_edge]
    rw [if_neg h]
    rfl

/-- C4 witness: the amended statement at a coincident-endpoint edge and at a separated
edge. -/
theorem solve_edge_zero_length_witness :
    norm3 ((fun _ => (0 : V3)) 0 - (fun _ => (0 : V3)) 1) = 0 ∧
    solve_edge chain_m_inv chain_fixed 1 (0, 1) 1 (fun _ => 0) = none ∧
    norm3 (pinned_edge_pos 0 - pinned_edge_pos 1) ≠ 0 ∧
    (solve_edge chain_m_inv chain_fixed 1 (0, 1) 1 pinned_edge_pos).isSome = true := by
  have hz : norm3 ((fun _ => (0 : V3)) 0 - (fun _ => (0 : V3)) 1) = 0 := by
    simp [norm3_zero]
  have hnz : norm3 (pinned_edge_pos 0 - pinned_edge_pos 1) ≠ 0 := by
    have e : pinned_edge_pos 0 - pinned_edge_pos 1 = ((2 : ℝ), 0, 0) := by
      simp only [pinned_edge_pos]
      norm_num
    rw [e, norm3_x]
    norm_num
  exact ⟨hz,
    (solve_edge_zero_length_non_finite chain_m_inv chain_fixed 1 1 (0, 1) (fun _ => 0)).1 hz,
    hnz,
    (solve_edge_zero_length_non_finite chain_m_inv chain_fixed 1 1 (0, 1)
      pinned_edge_pos).2 hnz⟩

/-! ## C6: the clamped knot builder -/

/-- Entry read of a mapped range list. -/
theorem getD_range_map (f : ℕ → ℚ) (L i : ℕ) (h : i < L) :
    ((List.range L).map f).getD i 0 = f i := by
  rw [List.getD_eq_getElem?_getD, List.getElem?_map, List.getElem?_range h]
  rfl

/-- The clamped branch of `make_knot_vector_np`, entrywise. -/
theorem clamped_knot_entry (n k i : ℕ) (h : i < n + k) :
    (make_knot_vector_np n k false).getD i 0 =
      if 2 * k < n + k ∧ k ≤ i ∧ i < n + k - k then
        ((i : ℚ) - (k : ℚ) + 1) / (((n + k : ℕ) : ℚ) - 2 * (k : ℚ) + 1)
      else if k = 0 ∨ n + k - k ≤ i then 1 else 0 := by
  unfold make_knot_vector_np
  rw [if_neg Bool.false_ne_true]
  exact getD_range_map _ _ _ h

/-- Length of the clamped knot vector. -/
theorem clamped_knot_length (n k : ℕ) : (make_knot_vector_np n k false).length = n + k := by
  unfold make_knot_vector_np
  rw [if_neg Bool.false_ne_true]
  simp

/-- Leading clamped knots are `0` (for `1 ≤ k ≤ n`). -/
theorem clamped_knot_zero (n k i : ℕ) (hk : 1 ≤ k) (hkn : k ≤ n) (hi : i < k) :
    (make_knot_vector_np n k false).getD i 0 = 0 := by
  rw [clamped_knot_entry n k i (by omega)]
  rw [if_neg, if_neg]
  · rintro (h0 | hge) <;> omega
  · rintro ⟨-, hki, -⟩
    omega

/-- Trailing clamped knots are `1` (for `1 ≤ k ≤ n`). -/
theorem clamped_knot_one (n k i : ℕ) (_hk : 1 ≤ k) (_hkn : k ≤ n) (hni : n ≤ i)
    (hik : i < n + k) :
    (make_knot_vector_np n k false).getD i 0 = 1 := by
  rw [clamped_knot_entry n k i hik]
  rw [if_neg, if_pos (Or.inr (by omega))]
  rintro ⟨-, -, hlt⟩
  omega

/-- Interior clamped knots follow the uniform formula. -/
theorem clamped_knot_interior (n k i : ℕ) (hki : k ≤ i) (hin : i < n) :
    (make_knot_vector_np n k false).getD i 0 =
      ((i : ℚ) - (k : ℚ) + 1) / ((n : ℚ) - (k : ℚ) + 1) := by
  rw [clamped_knot_entry n k i (by omega)]
  rw [if_pos ⟨by omega, hki, by omega⟩]
  congr 1
  push_cast
  ring

/-- C6 is false as stated: for `n = 3, order = 4` the result is `[0,0,0,1,1,1,1]` — its
length is `n + order` and its last `order` entries are `1`, but entry `3` (within the first
`order` entries, which the claim says are all `0`) equals `1`. -/
theorem make_knot_vector_np_small_n_counterexample :
    (make_knot_vector_np 3 4 false).length = 3 + 4 ∧
    (make_knot_vector_np 3 4 false).getD 3 0 = 1 ∧ (1 : ℚ) ≠ 0 := by decide

/-- C6 amended: for `1 ≤ order ≤ n` the clamped builder returns a length-`(n + order)`
sequence whose first `order` entries are `0`, whose last `order` entries are `1`, and whose
interior entry `i` (`order ≤ i < n`) equals `(i - order + 1)/(L - 2·order + 1)` with
`L = n + order`; in particular `make_knot_vector_np 4 4 false = [0,0,0,0,1,1,1,1]`.
(For `n < order` the first-entries property fails — see the counterexample — because the
trailing `knots[-order:] = 1` slice overlaps the leading entries.) -/
theorem make_knot_vector_np_clamped_shape (n k : ℕ) (hk : 1 ≤ k) (hkn : k ≤ n) :
    (make_knot_vector_np n k false).length = n + k ∧
    (∀ i, i < k → (make_knot_vector_np n k false).getD i 0 = 0) ∧
    (∀ i, n ≤ i → i < n + k → (make_knot_vector_np n k false).getD i 0 = 1) ∧
    (∀ i, k ≤ i → i < n →
      (make_knot_vector_np n k false).getD i 0 =
        ((i : ℚ) - (k : ℚ) + 1) / (((n + k : ℕ) : ℚ) - 2 * (k : ℚ) + 1)) ∧
    make_knot_vector_np 4 4 false = [0, 0, 0, 0, 1, 1, 1, 1] := by
  have hlen : (make_knot_vector_np n k false).length = n + k := by
    unfold make_knot_vector_np
    rw [if_neg Bool.false_ne_true]
    simp
  refine ⟨hlen, ?_, ?_, ?_, by decide⟩
  · intro i hi
    rw [clamped_knot_entry n k i (lt_of_lt_of_le hi (le_trans hkn (Nat.le_add_right n k)))]
    rw [if_neg, if_neg]
    · rintro (h0 | hge)
      · omega
      · omega
    · rintro ⟨-, hki, -⟩
      omega
  · intro i hni hiL
    rw [clamped_knot_entry n k i hiL]
    rw [if_neg, if_pos]
    · right
      omega
    · rintro ⟨-, -, hlt⟩
      omega
  · intro i hki hin
    rw [clamped_knot_entry n k i (lt_of_lt_of_le hin (Nat.le_add_right n k))]
    rw [if_pos ⟨by omega, hki, by omega⟩]

/-- C6 witness: the amended statement at `n = 4, order = 4`. -/
theorem make_knot_vector_np_clamped_shape_witness :
    ((1 : ℕ) ≤ 4 ∧ (4 : ℕ) ≤ 4) ∧
    make_knot_vector_np 4 4 false = [0, 0, 0, 0, 1, 1, 1, 1] :=
  ⟨⟨by decide, by decide⟩,
    (make_knot_vector_np_clamped_shape 4 4 (by decide) (by decide)).2.2.2.2⟩

/-! ## C2: pin invariant -/

/-- A constraint sweep rewrites only `x_tilde`. -/
theorem solve_state_preserves (cs cb : ℝ) (s s' : SimState)
    (h : solve_distance_constraints_state cs cb s = some s') :
    s'.x_cur = s.x_cur ∧ s'.fixed = s.fixed ∧ s'.num_vertices = s.num_vertices ∧
    s'.dt = s.dt ∧ s'.enable_wind = s.enable_wind := by
  obtain ⟨p, hp, rfl⟩ := Option.map_eq_some'.mp h
  exact ⟨rfl, rfl, rfl, rfl, rfl⟩

/-- Iterated sweeps rewrite only `x_tilde`. -/
theorem xpbd_sweeps_preserves (cs cb : ℝ) (n : ℕ) (s s' : SimState)
    (h : xpbd_sweeps cs cb n s = some s') :
    s'.x_cur = s.x_cur ∧ s'.fixed = s.fixed ∧ s'.num_vertices = s.num_vertices ∧
    s'.dt = s.dt ∧ s'.enable_wind = s.enable_wind := by
  induction n generalizing s with
  | zero =>
    simp only [xpbd_sweeps, Option.some_inj] at h
    subst h
    exact ⟨rfl, rfl, rfl, rfl, rfl⟩
  | succ n ih =>
    simp only [xpbd_sweeps] at h
    obtain ⟨m, hm, hrest⟩ := Option.bind_eq_some.mp h
    obtain ⟨a1, a2, a3, a4, a5⟩ := solve_state_preserves cs cb s m hm
    obtain ⟨b1, b2, b3, b4, b5⟩ := ih m hrest
    exact ⟨b1.trans a1, b2.trans a2, b3.trans a3, b4.trans a4, b5.trans a5⟩

/-- One frame update preserves the pin flags and the wind flag, and never moves `x_cur` of
a pinned particle. -/
theorem step_pipeline_pin (cs cb : ℝ) (rng : ℕ → ℝ × ℝ) (s s' : SimState)
    (h : step_pipeline cs cb rng s = some s') :
    s'.fixed = s.fixed ∧ s'.enable_wind = s.enable_wind ∧
    ∀ i, s.fixed i = 0 → s'.x_cur i = s.x_cur i := by
  simp only [step_pipeline] at h
  obtain ⟨s3, h3, rfl⟩ := Option.map_eq_some'.mp h
  have base :
      (if s.enable_wind then apply_wind rng (predict_x_tilde s)
        else predict_x_tilde s).x_cur = s.x_cur ∧
      (if s.enable_wind then apply_wind rng (predict_x_tilde s)
        else predict_x_tilde s).fixed = s.fixed ∧
      (if s.enable_wind then apply_wind rng (predict_x_tilde s)
        else predict_x_tilde s).num_vertices = s.num_vertices ∧
      (if s.enable_wind then apply_wind rng (predict_x_tilde s)
        else predict_x_tilde s).dt = s.dt ∧
      (if s.enable_wind then apply_wind rng (predict_x_tilde s)
        else predict_x_tilde s).enable_wind = s.enable_wind := by
    refine ⟨?_, ?_, ?_, ?_, ?_⟩ <;> (split <;> rfl)
  obtain ⟨hbx, hbf, hbn, hbd, hbw⟩ := base
  obtain ⟨hsx, hsf, hsn, hsd, hsw⟩ := xpbd_sweeps_preserves cs cb s.num_substeps _ s3 h3
  refine ⟨hsf.trans hbf, hsw.trans hbw, fun i hi => ?_⟩
  have hfix : s3.fixed i = 0 := by rw [hsf, hbf]; exact hi
  show (update_x (compute_v s3)).x_cur i = s.x_cur i
  simp only [update_x, compute_v]
  have hx3 : s3.x_cur i = s.x_cur i := by rw [hsx, hbx]
  by_cases hlt : i < s3.num_vertices
  · rw [if_pos hlt, hfix, zero_mul, zero_smul, add_zero, hx3]
  · rw [if_neg hlt, hx3]

/-- C2: particles with `fixed = 0` never change `x_cur` across any number of frame
updates, for every compliance value, wind setting, gravity, substep count and random
stream. -/
theorem pin_invariant (cs cb : ℝ) (rngs : ℕ → ℕ → ℝ × ℝ) (n : ℕ) (s s' : SimState)
    (h : step_trajectory cs cb rngs n s = some s') (i : ℕ) (hi : s.fixed i = 0) :
    s'.x_cur i = s.x_cur i := by
  induction n generalizing s with
  | zero =>
    simp only [step_trajectory, Option.some_inj] at h
    subst h
    rfl
  | succ n ih =>
    simp only [step_trajectory] at h
    obtain ⟨m, hm, hrest⟩ := Option.bind_eq_some.mp h
    obtain ⟨hf, hw, hx⟩ := step_pipeline_pin cs cb (rngs n) s m hm
    have hmfix : m.fixed i = 0 := by rw [hf]; exact hi
    rw [ih m hrest hmfix]
    exact hx i hi

/-- C2 witness: one frame of a fully pinned single-particle system. -/
theorem pin_invariant_witness :
    pinnedDemo.fixed 0 = 0 ∧
    ((step_trajectory 1 1 (fun _ _ => (0, 0)) 1 pinnedDemo).getD pinnedDemo).x_cur 0 =
      pinnedDemo.x_cur 0 := by
  have h : step_trajectory 1 1 (fun _ _ => (0, 0)) 1 pinnedDemo =
      some ((step_trajectory 1 1 (fun _ _ => (0, 0)) 1 pinnedDemo).getD pinnedDemo) := rfl
  exact ⟨rfl, pin_invariant 1 1 (fun _ _ => (0, 0)) 1 pinnedDemo _ h 0 rfl⟩

/-! ## C5: determinism with wind disabled -/

/-- With the wind flag off, a frame update never reads the random stream. -/
theorem step_pipeline_wind_off_rng (cs cb : ℝ) (rng1 rng2 : ℕ → ℝ × ℝ) (s : SimState)
    (hw : s.enable_wind = false) :
    step_pipeline cs cb rng1 s = step_pipeline cs cb rng2 s := by
  have h2 :
      (if s.enable_wind then apply_wind rng1 (predict_x_tilde s) else predict_x_tilde s) =
        (if s.enable_wind then apply_wind rng2 (predict_x_tilde s)
          else predict_x_tilde s) := by
    rw [hw, if_neg Bool.false_ne_true, if_neg Bool.false_ne_true]
  show (xpbd_sweeps cs cb s.num_substeps
      (if s.enable_wind then apply_wind rng1 (predict_x_tilde s)
        else predict_x_tilde s)).map _ =
    (xpbd_sweeps cs cb s.num_substeps
      (if s.enable_wind then apply_wind rng2 (predict_x_tilde s)
        else predict_x_tilde s)).map _
  rw [h2]

/-- C5: with wind disabled, trajectories are a deterministic function of the initial state
and parameters — two runs that differ only in their random streams coincide. -/
theorem step_trajectory_wind_disabled_deterministic (cs cb : ℝ)
    (rngs1 rngs2 : ℕ → ℕ → ℝ × ℝ) (n : ℕ) (s : SimState)
    (hw : s.enable_wind = false) :
    step_trajectory cs cb rngs1 n s = step_trajectory cs cb rngs2 n s := by
  induction n generalizing s with
  | zero => rfl
  | succ n ih =>
    show (step_pipeline cs cb (rngs1 n) s).bind (step_trajectory cs cb rngs1 n) =
      (step_pipeline cs cb (rngs2 n) s).bind (step_trajectory cs cb rngs2 n)
    exact Option.bind_congr' (step_pipeline_wind_off_rng cs cb (rngs1 n) (rngs2 n) s hw)
      fun m hm =>
        ih m (((step_pipeline_pin cs cb (rngs2 n) s m hm).2.1).trans hw)

/-- C5 witness: two two-frame runs of the demo system under different random streams. -/
theorem step_trajectory_deterministic_witness :
    demoState.enable_wind = false ∧
    step_trajectory 1 1 (fun _ _ => (0, 0)) 2 demoState =
      step_trajectory 1 1 (fun _ _ => (1 / 2, 1 / 3)) 2 demoState :=
  ⟨rfl, step_trajectory_wind_disabled_deterministic 1 1 _ _ 2 demoState rfl⟩

/-! ## C9: closed-topology control-net seam and padding -/

/-- A cell-copy loop does not change entries outside its destination range. -/
theorem copy_cells_out (dstBase srcBase : ℕ) (g : ℕ → V3) (x : ℕ) :
    ∀ count, (x < dstBase ∨ dstBase + count ≤ x) →
      copy_cells dstBase srcBase count g x = g x := by
  intro count
  induction count with
  | zero => intro _; rfl
  | succ n ih =>
    intro h
    show (List.range (n + 1)).foldl
        (fun h j => Function.update h (dstBase + j) (h (srcBase + j))) g x = g x
    rw [List.range_succ, List.foldl_append, List.foldl_cons, List.foldl_nil]
    rw [Function.update_noteq (by omega)]
    exact ih (by omega)

/-- Inside its destination range, a cell-copy loop whose source range is disjoint from its
destination range reads the original source cells. -/
theorem copy_cells_in (dstBase srcBase : ℕ) (g : ℕ → V3) (j : ℕ) :
    ∀ count, j < count →
      (dstBase + count ≤ srcBase ∨ srcBase + count ≤ dstBase) →
      copy_cells dstBase srcBase count g (dstBase + j) = g (srcBase + j) := by
  intro count
  induction count with
  | zero => intro hj; omega
  | succ n ih =>
    intro hj hdisj
    show (List.range (n + 1)).foldl
        (fun h j => Function.update h (dstBase + j) (h (srcBase + j))) g (dstBase + j) =
      g (srcBase + j)
    rw [List.range_succ, List.foldl_append, List.foldl_cons, List.foldl_nil]
    by_cases hjn : j = n
    · subst hjn
      rw [Function.update_same]
      exact copy_cells_out dstBase srcBase g (srcBase + j) j (by omega)
    · rw [Function.update_noteq (by omega)]
      exact ih (by omega) (by omega)

/-- The padding fold of `reorder_control_net_np_cyl` does not change entries outside the
destination ranges of its copies. -/
theorem pad_foldl_out (num_u num_v : ℕ) (l : List ℕ) (x : ℕ) :
    ∀ g : ℕ → V3,
      (∀ m ∈ l, x < (num_u - 1 + m) * num_v ∨ (num_u - 1 + m) * num_v + num_v ≤ x) →
      l.foldl (fun h i => copy_cells ((num_u - 1 + i) * num_v) (i * num_v) num_v h) g x
        = g x := by
  induction l with
  | nil => intro g _; rfl
  | cons a l ih =>
    intro g hx
    rw [List.foldl_cons]
    rw [ih _ fun m hm => hx m (List.mem_cons_of_mem a hm)]
    exact copy_cells_out _ _ _ _ _ (hx a (List.mem_cons_self a l))

/-- C9: for closed topology, after the control-net rebuild from any particle input the
allocated net has `num_u + order_u - 1` rows, row `0` equals row `num_u - 1` (seam
closure), and each padding row `num_u - 1 + i` (`1 ≤ i < order_u`) equals row `i`. -/
theorem reorder_control_net_cyl_seam_padding (num_u num_v order_u : ℕ)
    (verts : List V3) (uv : List (ℚ × ℚ)) (i j : ℕ)
    (hou : order_u ≤ num_u) (hi1 : 1 ≤ i) (hi2 : i < order_u) (hj : j < num_v) :
    cyl_control_net_size num_u num_v order_u = (num_u + order_u - 1) * num_v ∧
    reorder_control_net_np_cyl num_u num_v order_u verts uv (0 * num_v + j) =
      reorder_control_net_np_cyl num_u num_v order_u verts uv ((num_u - 1) * num_v + j) ∧
    reorder_control_net_np_cyl num_u num_v order_u verts uv ((num_u - 1 + i) * num_v + j) =
      reorder_control_net_np_cyl num_u num_v order_u verts uv (i * num_v + j) := by
  have hu2 : 2 ≤ num_u := le_trans (by omega) hou
  -- target index arithmetic, kept free of ℕ-subtraction pitfalls
  have hrow0 : ∀ m, 1 ≤ m → 0 * num_v + j < (num_u - 1 + m) * num_v := fun m hm =>
    lt_of_lt_of_le (by omega) (Nat.le_mul_of_pos_left num_v (by omega))
  have hrowLast : ∀ m, 1 ≤ m → (num_u - 1) * num_v + j < (num_u - 1 + m) * num_v := by
    intro m hm
    calc (num_u - 1) * num_v + j < (num_u - 1) * num_v + num_v :=
          Nat.add_lt_add_left hj _
      _ = (num_u - 1 + 1) * num_v := by ring
      _ ≤ (num_u - 1 + m) * num_v := Nat.mul_le_mul_right _ (by omega)
  have hseam_disj : 0 + num_v ≤ (num_u - 1) * num_v := by
    calc 0 + num_v = 1 * num_v := by ring
      _ ≤ (num_u - 1) * num_v := Nat.mul_le_mul_right _ (by omega)
  have hrowi : ∀ m, 1 ≤ m → i * num_v + j < (num_u - 1 + m) * num_v := by
    intro m hm
    calc i * num_v + j < i * num_v + num_v := Nat.add_lt_add_left hj _
      _ = (i + 1) * num_v := by ring
      _ ≤ (num_u - 1 + m) * num_v := Nat.mul_le_mul_right _ (by omega)
  have hrowPad : ∀ m, i + 1 ≤ m →
      (num_u - 1 + i) * num_v + j < (num_u - 1 + m) * num_v := by
    intro m hm
    calc (num_u - 1 + i) * num_v + j < (num_u - 1 + i) * num_v + num_v :=
          Nat.add_lt_add_left hj _
      _ = (num_u - 1 + i + 1) * num_v := by ring
      _ ≤ (num_u - 1 + m) * num_v := Nat.mul_le_mul_right _ (by omega)
  have hpad_disj : i * num_v + num_v ≤ (num_u - 1 + i) * num_v := by
    calc i * num_v + num_v = (i + 1) * num_v := by ring
      _ ≤ (num_u - 1 + i) * num_v := Nat.mul_le_mul_right _ (by omega)
  refine ⟨rfl, ?_, ?_⟩
  all_goals
    rw [show reorder_control_net_np_cyl num_u num_v order_u verts uv =
        (List.range' 1 (order_u - 1)).foldl
          (fun h i => copy_cells ((num_u - 1 + i) * num_v) (i * num_v) num_v h)
          (copy_cells 0 ((num_u - 1) * num_v) num_v
            (reorder_base_fill num_u num_v verts uv fun _ => 0)) from rfl]
  · -- seam: row 0 equals row num_u - 1 after the whole rebuild
    have hm1 : ∀ m ∈ List.range' 1 (order_u - 1), 1 ≤ m := by
      intro m hmm
      rw [List.mem_range'] at hmm
      obtain ⟨t, ht, rfl⟩ := hmm
      omega
    rw [pad_foldl_out num_u num_v _ (0 * num_v + j) _
        (fun m hmm => Or.inl (hrow0 m (hm1 m hmm)))]
    rw [pad_foldl_out num_u num_v _ ((num_u - 1) * num_v + j) _
        (fun m hmm => Or.inl (hrowLast m (hm1 m hmm)))]
    rw [show (0 : ℕ) * num_v + j = 0 + j by ring]
    rw [copy_cells_in 0 ((num_u - 1) * num_v) _ j num_v hj (Or.inl hseam_disj)]
    rw [copy_cells_out 0 ((num_u - 1) * num_v) _ ((num_u - 1) * num_v + j) num_v
        (Or.inr (le_trans hseam_disj (Nat.le_add_right _ _)))]
  · -- padding: row num_u - 1 + i equals row i after the whole rebuild
    have hsplit : List.range' 1 (order_u - 1) =
        List.range' 1 (i - 1) ++ i :: List.range' (i + 1) (order_u - 1 - i) := by
      have h3 : order_u - 1 = ((order_u - 1 - i) + 1) + (i - 1) := by omega
      calc List.range' 1 (order_u - 1)
          = List.range' 1 (((order_u - 1 - i) + 1) + (i - 1)) := by rw [← h3]
        _ = List.range' 1 (i - 1) ++
              List.range' (1 + 1 * (i - 1)) ((order_u - 1 - i) + 1) :=
            (List.range'_append _ _ _ _).symm
        _ = List.range' 1 (i - 1) ++ List.range' i ((order_u - 1 - i) + 1) := by
            rw [show 1 + 1 * (i - 1) = i by omega]
        _ = List.range' 1 (i - 1) ++ i :: List.range' (i + 1) (order_u - 1 - i) := by
            rw [List.range'_succ]
    have hmB : ∀ m ∈ List.range' (i + 1) (order_u - 1 - i), i + 1 ≤ m := by
      intro m hmm
      rw [List.mem_range'] at hmm
      obtain ⟨t, ht, rfl⟩ := hmm
      omega
    have hmA : ∀ m ∈ List.range' 1 (i - 1), 1 ≤ m := by
      intro m hmm
      rw [List.mem_range'] at hmm
      obtain ⟨t, ht, rfl⟩ := hmm
      omega
    rw [hsplit, List.foldl_append, List.foldl_cons]
    -- the copies after step i only write rows above num_u - 1 + i
    rw [pad_foldl_out num_u num_v _ ((num_u - 1 + i) * num_v + j) _
        (fun m hmm => Or.inl (hrowPad m (hmB m hmm)))]
    rw [pad_foldl_out num_u num_v _ (i * num_v + j) _
        (fun m hmm => Or.inl (hrowi m (le_trans (by omega) (hmB m hmm))))]
    -- step i copies row i into row num_u - 1 + i
    rw [copy_cells_in ((num_u - 1 + i) * num_v) (i * num_v) _ j num_v hj
        (Or.inr hpad_disj)]
    -- the copies before step i do not touch row i's cells
    rw [pad_foldl_out num_u num_v _ (i * num_v + j) _
        (fun m hmm => Or.inl (hrowi m (hmA m hmm)))]
    rw [copy_cells_out ((num_u - 1 + i) * num_v) (i * num_v) _ (i * num_v + j) num_v
        (Or.inl (hrowi i hi1))]
    exact (pad_foldl_out num_u num_v _ (i * num_v + j) _
      (fun m hmm => Or.inl (hrowi m (hmA m hmm)))).symm

/-! ## C8: residual behaviour across sweeps -/

theorem sub_triple (a b c d e f : ℝ) :
    ((a, b, c) : V3) - (d, e, f) = (a - d, b - e, c - f) := rfl

theorem add_triple (a b c d e f : ℝ) :
    ((a, b, c) : V3) + (d, e, f) = (a + d, b + e, c + f) := rfl

theorem smul_triple (r a b c : ℝ) : r • ((a, b, c) : V3) = (r * a, r * b, r * c) := rfl

theorem norm3_sub_x (a b : ℝ) : norm3 ((a, 0, 0) - (b, 0, 0)) = |a - b| := by
  rw [sub_triple]
  simp only [sub_zero]
  exact norm3_x _

/-- Evaluation of one distance-constraint projection on an x-axis-aligned edge with the
first endpoint ahead of the second. -/
theorem solve_edge_axis (m_inv fixed : ℕ → ℝ) (cs l0v : ℝ) (v0 v1 : ℕ) (pos : ℕ → V3)
    (a b : ℝ) (hne : v0 ≠ v1) (ha : pos v0 = (a, 0, 0)) (hb : pos v1 = (b, 0, 0))
    (hlt : b < a) :
    solve_edge m_inv fixed cs (v0, v1) l0v pos =
      some (Function.update
        (Function.update pos v0
          (a - fixed v0 * m_inv v0 *
              lagrange_step cs (a - b - l0v)
                (fixed v0 * m_inv v0 + fixed v1 * m_inv v1), 0, 0))
        v1
        (b + fixed v1 * m_inv v1 *
            lagrange_step cs (a - b - l0v)
              (fixed v0 * m_inv v0 + fixed v1 * m_inv v1), 0, 0)) := by
  have hab : a - b ≠ 0 := ne_of_gt (sub_pos.mpr hlt)
  have hx01 : pos (v0, v1).1 - pos (v0, v1).2 = (a - b, 0, 0) := by
    show pos v0 - pos v1 = (a - b, 0, 0)
    rw [ha, hb, sub_triple]
    simp only [sub_zero]
  have hnorm : norm3 ((a - b, 0, 0) : V3) = a - b := by
    rw [norm3_x, abs_of_pos (sub_pos.mpr hlt)]
  simp only [solve_edge, hx01, hnorm]
  rw [if_neg hab]
  have hnabla : (1 / (a - b)) • ((a - b, 0, 0) : V3) = (1, 0, 0) := by
    rw [smul_triple, mul_zero, one_div_mul_cancel hab]
  simp only [hnabla]
  have hupd0 : pos v0 - (fixed v0 * m_inv v0 *
      lagrange_step cs (a - b - l0v)
        (fixed v0 * m_inv v0 + fixed v1 * m_inv v1)) • ((1 : ℝ), 0, 0) =
      (a - fixed v0 * m_inv v0 *
        lagrange_step cs (a - b - l0v)
          (fixed v0 * m_inv v0 + fixed v1 * m_inv v1), 0, 0) := by
    rw [ha, smul_triple, mul_one, mul_zero, sub_triple]
    simp only [sub_zero]
  rw [hupd0]
  have hread1 : Function.update pos v0
      (a - fixed v0 * m_inv v0 *
        lagrange_step cs (a - b - l0v)
          (fixed v0 * m_inv v0 + fixed v1 * m_inv v1), 0, 0) v1 = (b, 0, 0) := by
    rw [Function.update_noteq (Ne.symm hne)]
    exact hb
  rw [hread1]
  have hupd1 : ((b, 0, 0) : V3) + (fixed v1 * m_inv v1 *
      lagrange_step cs (a - b - l0v)
        (fixed v0 * m_inv v0 + fixed v1 * m_inv v1)) • ((1, 0, 0) : V3) =
      (b + fixed v1 * m_inv v1 *
        lagrange_step cs (a - b - l0v)
          (fixed v0 * m_inv v0 + fixed v1 * m_inv v1), 0, 0) := by
    rw [smul_triple, mul_one, mul_zero, add_triple]
    simp only [add_zero]
  rw [hupd1]

/-- Sweep 1, edge `(0,1)` of the chain: already at rest length, no movement. -/
theorem chain_sweep1_edge01 :
    solve_edge chain_m_inv chain_fixed 1 (0, 1) 1 chain_pos = some chain_pos := by
  rw [solve_edge_axis chain_m_inv chain_fixed 1 1 0 1 chain_pos 0 (-1)
      (by decide) rfl rfl (by norm_num)]
  congr 1
  funext i
  rcases eq_or_ne i 1 with h1 | h1
  · subst h1
    rw [Function.update_same]
    norm_num [chain_fixed, chain_m_inv, chain_pos, lagrange_step]
  · rw [Function.update_noteq h1]
    rcases eq_or_ne i 0 with h0 | h0
    · subst h0
      rw [Function.update_same]
      norm_num [chain_fixed, chain_m_inv, chain_pos, lagrange_step]
    · rw [Function.update_noteq h0]

/-- Sweep 1, edge `(1,2)` of the chain: the middle particle moves to `-3/2`. -/
theorem chain_sweep1_edge12 :
    solve_edge chain_m_inv chain_fixed 1 (1, 2) 1 chain_pos = some chain_pos1 := by
  rw [solve_edge_axis chain_m_inv chain_fixed 1 1 1 2 chain_pos (-1) (-3)
      (by decide) rfl rfl (by norm_num)]
  congr 1
  funext i
  rcases eq_or_ne i 2 with h2 | h2
  · subst h2
    rw [Function.update_same]
    norm_num [chain_fixed, chain_m_inv, chain_pos1, lagrange_step]
  · rw [Function.update_noteq h2]
    rcases eq_or_ne i 1 with h1 | h1
    · subst h1
      rw [Function.update_same]
      norm_num [chain_fixed, chain_m_inv, chain_pos1, lagrange_step]
    · rw [Function.update_noteq h1]
      rcases eq_or_ne i 0 with h0 | h0
      · subst h0
        norm_num [chain_pos, chain_pos1]
      · norm_num [chain_pos, chain_pos1, h0, h1, h2]

/-- Sweep 2, edge `(0,1)` of the chain: the middle particle moves to `-5/4`. -/
theorem chain_sweep2_edge01 :
    solve_edge chain_m_inv chain_fixed 1 (0, 1) 1 chain_pos1 = some chain_pos2a := by
  rw [solve_edge_axis chain_m_inv chain_fixed 1 1 0 1 chain_pos1 0 (-(3 / 2))
      (by decide) rfl rfl (by norm_num)]
  congr 1
  funext i
  rcases eq_or_ne i 1 with h1 | h1
  · subst h1
    rw [Function.update_same]
    norm_num [chain_fixed, chain_m_inv, chain_pos2a, lagrange_step]
  · rw [Function.update_noteq h1]
    rcases eq_or_ne i 0 with h0 | h0
    · subst h0
      rw [Function.update_same]
      norm_num [chain_fixed, chain_m_inv, chain_pos2a, lagrange_step]
    · rw [Function.update_noteq h0]
      norm_num [chain_pos1, chain_pos2a, h0, h1]

/-- Sweep 2, edge `(1,2)` of the chain: the middle particle moves to `-13/8`. -/
theorem chain_sweep2_edge12 :
    solve_edge chain_m_inv chain_fixed 1 (1, 2) 1 chain_pos2a = some chain_pos2 := by
  rw [solve_edge_axis chain_m_inv chain_fixed 1 1 1 2 chain_pos2a (-(5 / 4)) (-3)
      (by decide) rfl rfl (by norm_num)]
  congr 1
  funext i
  rcases eq_or_ne i 2 with h2 | h2
  · subst h2
    rw [Function.update_same]
    norm_num [chain_fixed, chain_m_inv, chain_pos2, lagrange_step]
  · rw [Function.update_noteq h2]
    rcases eq_or_ne i 1 with h1 | h1
    · subst h1
      rw [Function.update_same]
      norm_num [chain_fixed, chain_m_inv, chain_pos2, lagrange_step]
    · rw [Function.update_noteq h1]
      rcases eq_or_ne i 0 with h0 | h0
      · subst h0
        norm_num [chain_pos2a, chain_pos2]
      · norm_num [chain_pos2a, chain_pos2, h0, h1, h2]

/-- The first full sweep over the chain. -/
theorem chain_sweep1 :
    solve_distance_constraints 2 chain_edges chain_l0 chain_m_inv chain_fixed 1 0
      chain_pos = some chain_pos1 := by
  simp only [solve_distance_constraints]
  rw [show List.range 2 = [0, 1] from rfl, List.foldl_cons, List.foldl_cons,
    List.foldl_nil]
  rw [show chain_edges 0 = ((0 : ℕ), (1 : ℕ)) from rfl,
    show chain_edges 1 = ((1 : ℕ), (2 : ℕ)) from rfl,
    show chain_l0 0 = (1 : ℝ) from rfl, show chain_l0 1 = (1 : ℝ) from rfl]
  rw [Option.some_bind, chain_sweep1_edge01, Option.some_bind, chain_sweep1_edge12]

/-- The second full sweep over the chain. -/
theorem chain_sweep2 :
    solve_distance_constraints 2 chain_edges chain_l0 chain_m_inv chain_fixed 1 0
      chain_pos1 = some chain_pos2 := by
  simp only [solve_distance_constraints]
  rw [show List.range 2 = [0, 1] from rfl, List.foldl_cons, List.foldl_cons,
    List.foldl_nil]
  rw [show chain_edges 0 = ((0 : ℕ), (1 : ℕ)) from rfl,
    show chain_edges 1 = ((1 : ℕ), (2 : ℕ)) from rfl,
    show chain_l0 0 = (1 : ℝ) from rfl, show chain_l0 1 = (1 : ℝ) from rfl]
  rw [Option.some_bind, chain_sweep2_edge01, Option.some_bind, chain_sweep2_edge12]

/-- Stretch residual of the chain after one sweep. -/
theorem chain_residual1 :
    compute_constraint_residual 2 chain_edges chain_l0 chain_pos1 = 1 / 2 := by
  simp only [compute_constraint_residual]
  rw [show List.range 2 = [0, 1] from rfl, List.foldl_cons, List.foldl_cons,
    List.foldl_nil]
  rw [show chain_pos1 (chain_edges 0).1 = ((0 : ℝ), 0, 0) from rfl,
    show chain_pos1 (chain_edges 0).2 = (-(3 / 2 : ℝ), 0, 0) from rfl,
    show chain_pos1 (chain_edges 1).1 = (-(3 / 2 : ℝ), 0, 0) from rfl,
    show chain_pos1 (chain_edges 1).2 = (-(3 : ℝ), 0, 0) from rfl,
    norm3_sub_x, norm3_sub_x,
    show chain_l0 0 = (1 : ℝ) from rfl, show chain_l0 1 = (1 : ℝ) from rfl,
    show |(0 : ℝ) - -(3 / 2)| = 3 / 2 by rw [abs_of_pos] <;> norm_num,
    show |(-(3 / 2) : ℝ) - -3| = 3 / 2 by rw [abs_of_pos] <;> norm_num]
  norm_num

/-- Stretch residual of the chain after two sweeps. -/
theorem chain_residual2 :
    compute_constraint_residual 2 chain_edges chain_l0 chain_pos2 = 17 / 32 := by
  simp only [compute_constraint_residual]
  rw [show List.range 2 = [0, 1] from rfl, List.foldl_cons, List.foldl_cons,
    List.foldl_nil]
  rw [show chain_pos2 (chain_edges 0).1 = ((0 : ℝ), 0, 0) from rfl,
    show chain_pos2 (chain_edges 0).2 = (-(13 / 8 : ℝ), 0, 0) from rfl,
    show chain_pos2 (chain_edges 1).1 = (-(13 / 8 : ℝ), 0, 0) from rfl,
    show chain_pos2 (chain_edges 1).2 = (-(3 : ℝ), 0, 0) from rfl,
    norm3_sub_x, norm3_sub_x,
    show chain_l0 0 = (1 : ℝ) from rfl, show chain_l0 1 = (1 : ℝ) from rfl,
    show |(0 : ℝ) - -(13 / 8)| = 13 / 8 by rw [abs_of_pos] <;> norm_num,
    show |(-(13 / 8) : ℝ) - -3| = 11 / 8 by rw [abs_of_pos] <;> norm_num]
  norm_num

/-- The chain's rest lengths and inverse masses are exactly what `init_m_inv_l0` derives
from the rest positions. -/
theorem chain_init : init_m_inv_l0 2 chain_edges chain_x0 = (chain_l0, chain_m_inv) := by
  simp only [init_m_inv_l0]
  rw [show List.range 2 = [0, 1] from rfl, List.foldl_cons, List.foldl_cons,
    List.foldl_nil]
  have hn0 : norm3 (chain_x0 (chain_edges 0).1 - chain_x0 (chain_edges 0).2) = 1 := by
    rw [show chain_x0 (chain_edges 0).1 = (((0 : ℕ) : ℝ), 0, 0) from rfl,
      show chain_x0 (chain_edges 0).2 = (((1 : ℕ) : ℝ), 0, 0) from rfl, norm3_sub_x]
    rw [show ((0 : ℕ) : ℝ) - ((1 : ℕ) : ℝ) = -1 by push_cast; ring, abs_neg, abs_one]
  have hn1 : norm3 (chain_x0 (chain_edges 1).1 - chain_x0 (chain_edges 1).2) = 1 := by
    rw [show chain_x0 (chain_edges 1).1 = (((1 : ℕ) : ℝ), 0, 0) from rfl,
      show chain_x0 (chain_edges 1).2 = (((2 : ℕ) : ℝ), 0, 0) from rfl, norm3_sub_x]
    rw [show ((1 : ℕ) : ℝ) - ((2 : ℕ) : ℝ) = -1 by push_cast; ring, abs_neg, abs_one]
  rw [hn0, hn1]
  rw [Prod.ext_iff]
  constructor
  · funext i
    simp only [Function.update_apply]
    rcases eq_or_ne i 0 with h0 | h0
    · subst h0
      norm_num [chain_l0]
    · rcases eq_or_ne i 1 with h1 | h1
      · subst h1
        norm_num [chain_l0]
      · simp only [h0, h1, if_false]
        rw [chain_l0, if_neg (by omega)]
  · funext i
    simp only [Function.update_apply, chain_edges]
    norm_num
    rcases eq_or_ne i 0 with h0 | h0
    · subst h0
      norm_num [chain_m_inv]
    · rcases eq_or_ne i 1 with h1 | h1
      · subst h1
        norm_num [chain_m_inv]
      · rcases eq_or_ne i 2 with h2 | h2
        · subst h2
          norm_num [chain_m_inv]
        · simp only [h0, h1, h2, if_false]
          rw [chain_m_inv]
          simp only [h0, h1, h2, if_false]

/-- C8 is false as stated: on a valid 3-particle chain (rest positions `0,1,2`, rest
lengths and inverse masses exactly as `init_m_inv_l0` derives them, both ends pinned),
starting the sweeps from positions `(0, -1, -3)` at compliance 1, the aggregate squared
stretch residual is `1/2` after sweep 1 and `17/32 > 1/2` after sweep 2: consecutive
Gauss-Seidel sweeps can increase the residual. -/
theorem sweep_residual_increase_counterexample :
    init_m_inv_l0 2 chain_edges chain_x0 = (chain_l0, chain_m_inv) ∧
    (solve_distance_constraints 2 chain_edges chain_l0 chain_m_inv chain_fixed 1 0
        chain_pos).map (compute_constraint_residual 2 chain_edges chain_l0) =
      some (1 / 2) ∧
    ((solve_distance_constraints 2 chain_edges chain_l0 chain_m_inv chain_fixed 1 0
          chain_pos).bind
        (solve_distance_constraints 2 chain_edges chain_l0 chain_m_inv chain_fixed
          1 0)).map
      (compute_constraint_residual 2 chain_edges chain_l0) = some (17 / 32) ∧
    (1 / 2 : ℝ) < 17 / 32 := by
  refine ⟨chain_init, ?_, ?_, by norm_num⟩
  · rw [chain_sweep1, Option.map_some', chain_residual1]
  · rw [chain_sweep1, Option.some_bind, chain_sweep2, Option.map_some', chain_residual2]

/-- C8 amended: the non-increase the spec describes holds for the projection of an
isolated edge — one sweep of a single-edge system scales the constraint violation by
`1/(α̃·schur + 1)`, so its squared stretch residual never increases — but across edges
sharing a vertex the aggregate residual is not monotone from sweep to sweep (see the
counterexample). -/
theorem single_edge_residual_non_increasing (E : ℕ → ℕ × ℕ) (l0f m_inv fixed : ℕ → ℝ)
    (cs cb : ℝ) (pos pos' : ℕ → V3)
    (hc : 0 ≤ cs)
    (hw0 : 0 ≤ fixed (E 0).1 * m_inv (E 0).1)
    (hw1 : 0 ≤ fixed (E 0).2 * m_inv (E 0).2)
    (hl0 : 0 ≤ l0f 0)
    (hne : (E 0).1 ≠ (E 0).2)
    (h : solve_distance_constraints 1 E l0f m_inv fixed cs cb pos = some pos') :
    compute_constraint_residual 1 E l0f pos' ≤
      compute_constraint_residual 1 E l0f pos := by
  have h1 : solve_edge m_inv fixed cs (E 0) (l0f 0) pos = some pos' := by
    simpa only [solve_distance_constraints, show List.range 1 = [0] from rfl,
      List.foldl_cons, List.foldl_nil, Option.some_bind] using h
  simp only [solve_edge] at h1
  by_cases hl : norm3 (pos (E 0).1 - pos (E 0).2) = 0
  · rw [if_pos hl] at h1
    exact absurd h1 (by simp)
  rw [if_neg hl] at h1
  have hp' := (Option.some_inj.mp h1).symm
  set v0 := (E 0).1 with hv0
  set v1 := (E 0).2 with hv1
  set l := norm3 (pos v0 - pos v1) with hldef
  set w0 := fixed v0 * m_inv v0 with hw0def
  set w1 := fixed v1 * m_inv v1 with hw1def
  set ld := lagrange_step cs (l - l0f 0) (w0 + w1) with hlddef
  have hlpos : 0 < l := lt_of_le_of_ne (norm3_nonneg _) (Ne.symm hl)
  have hx' : pos' v0 - pos' v1 =
      (1 - (w0 + w1) * ld / l) • (pos v0 - pos v1) := by
    rw [hp', Function.update_same, Function.update_noteq hne, Function.update_same,
      Function.update_noteq (Ne.symm hne)]
    rw [smul_smul, smul_smul]
    have habel : ∀ p q r s : V3, p - r - (q + s) = (p - q) - (r + s) := by
      intro p q r s
      abel
    rw [habel, ← add_smul]
    rw [show w0 * ld * (1 / l) + w1 * ld * (1 / l) = (w0 + w1) * ld / l by ring]
    rw [sub_smul, one_smul]
  have hA : 0 ≤ cs * (w0 + w1) := mul_nonneg hc (add_nonneg hw0 hw1)
  have hdenom : 0 < cs * (w0 + w1) + 1 := by linarith
  have hcl : (1 - (w0 + w1) * ld / l) * l =
      (l + cs * (w0 + w1) * l0f 0) / (cs * (w0 + w1) + 1) := by
    rw [hlddef, lagrange_step]
    field_simp
    ring
  have hclnn : 0 ≤ 1 - (w0 + w1) * ld / l := by
    have hnum : 0 ≤ (l + cs * (w0 + w1) * l0f 0) / (cs * (w0 + w1) + 1) :=
      div_nonneg (by nlinarith) (le_of_lt hdenom)
    nlinarith [hcl]
  have hnorm' : norm3 (pos' v0 - pos' v1) =
      (l + cs * (w0 + w1) * l0f 0) / (cs * (w0 + w1) + 1) := by
    rw [hx', norm3_smul, abs_of_nonneg hclnn, ← hldef, hcl]
  have hC' : norm3 (pos' v0 - pos' v1) - l0f 0 = (l - l0f 0) / (cs * (w0 + w1) + 1) := by
    rw [hnorm']
    field_simp
    ring
  have hres : ∀ p : ℕ → V3, compute_constraint_residual 1 E l0f p =
      0 + (norm3 (p v0 - p v1) - l0f 0) * (norm3 (p v0 - p v1) - l0f 0) := fun p => rfl
  rw [hres pos', hres pos, hC', ← hldef]
  have hkey : (l - l0f 0) / (cs * (w0 + w1) + 1) * ((l - l0f 0) / (cs * (w0 + w1) + 1)) ≤
      (l - l0f 0) * (l - l0f 0) := by
    rw [div_mul_div_comm]
    exact div_le_self (mul_self_nonneg _) (by nlinarith)
  linarith

/-- C8 witness for the amended statement: one sweep of an isolated fully pinned edge. -/
theorem single_edge_residual_witness :
    ((0 : ℝ) ≤ 1 ∧
      (0 : ℝ) ≤ pinned_flags (edge01 0).1 * chain_m_inv (edge01 0).1 ∧
      (0 : ℝ) ≤ pinned_flags (edge01 0).2 * chain_m_inv (edge01 0).2 ∧
      (0 : ℝ) ≤ unit_l0 0 ∧ (edge01 0).1 ≠ (edge01 0).2 ∧
      solve_distance_constraints 1 edge01 unit_l0 chain_m_inv pinned_flags 1 0
        pinned_edge_pos = some pinned_edge_pos) ∧
    compute_constraint_residual 1 edge01 unit_l0 pinned_edge_pos ≤
      compute_constraint_residual 1 edge01 unit_l0 pinned_edge_pos := by
  have hedge : solve_edge chain_m_inv pinned_flags 1 (0, 1) 1 pinned_edge_pos =
      some pinned_edge_pos := by
    rw [solve_edge_axis chain_m_inv pinned_flags 1 1 0 1 pinned_edge_pos 2 0
        (by decide) rfl rfl (by norm_num)]
    congr 1
    funext i
    rcases eq_or_ne i 1 with h1 | h1
    · subst h1
      rw [Function.update_same]
      norm_num [pinned_flags, chain_m_inv, pinned_edge_pos, lagrange_step]
    · rw [Function.update_noteq h1]
      rcases eq_or_ne i 0 with h0 | h0
      · subst h0
        rw [Function.update_same]
        norm_num [pinned_flags, chain_m_inv, pinned_edge_pos, lagrange_step]
      · rw [Function.update_noteq h0]
  have hsweep : solve_distance_constraints 1 edge01 unit_l0 chain_m_inv pinned_flags 1 0
      pinned_edge_pos = some pinned_edge_pos := by
    simp only [solve_distance_constraints]
    rw [show List.range 1 = [0] from rfl, List.foldl_cons, List.foldl_nil,
      show edge01 0 = ((0 : ℕ), (1 : ℕ)) from rfl, show unit_l0 0 = (1 : ℝ) from rfl,
      Option.some_bind, hedge]
  have hw0 : (0 : ℝ) ≤ pinned_flags (edge01 0).1 * chain_m_inv (edge01 0).1 := by
    norm_num [pinned_flags, chain_m_inv, edge01]
  have hw1 : (0 : ℝ) ≤ pinned_flags (edge01 0).2 * chain_m_inv (edge01 0).2 := by
    norm_num [pinned_flags, chain_m_inv, edge01]
  have hl0 : (0 : ℝ) ≤ unit_l0 0 := by norm_num [unit_l0]
  have hne : (edge01 0).1 ≠ (edge01 0).2 := by decide
  exact ⟨⟨by norm_num, hw0, hw1, hl0, hne, hsweep⟩,
    single_edge_residual_non_increasing edge01 unit_l0 chain_m_inv pinned_flags 1 0
      pinned_edge_pos pinned_edge_pos (by norm_num) hw0 hw1 hl0 hne hsweep⟩

/-! ## C7: corner interpolation of the clamped De Boor surface -/

/-- If every blend factor of every pass is zero, each pass shifts the buffer down by one
slot, so the pass loop ending at multiplicity `r` returns initial entry `r - 1`. -/
theorem de_boor_passes_all_shift (K : ℕ → ℝ) (t : ℝ) (d : ℕ) :
    ∀ r, 1 ≤ r →
      (∀ r' s, 2 ≤ r' → r' ≤ r → s ≤ r' - 2 → de_boor_omega K t d r' s = 0) →
      ∀ D : ℕ → V3, de_boor_passes K t d r D 0 = D (r - 1) := by
  intro r
  induction r with
  | zero => intro h; omega
  | succ m ih =>
    intro h1 hw D
    cases m with
    | zero => rfl
    | succ p =>
      show de_boor_passes K t d (p + 2) D 0 = D (p + 1)
      show de_boor_passes K t d (p + 1) (de_boor_pass K t d (p + 2) D) 0 = D (p + 1)
      rw [ih (by omega) (fun r' s a b c => hw r' s a (by omega) c) _]
      show de_boor_pass K t d (p + 2) D p = D (p + 1)
      simp only [de_boor_pass]
      rw [if_pos (by omega), hw (p + 2) p (by omega) (by omega) (by omega)]
      rw [zero_smul, zero_add, sub_zero, one_smul]

/-- If the first blend factor of each pass is zero and the rest are one, the pass loop
copies slot 1 into slot 0 and leaves slot 1 alone, so it returns initial entry `1`. -/
theorem de_boor_passes_keep_second (K : ℕ → ℝ) (t : ℝ) (d : ℕ) :
    ∀ r, 2 ≤ r →
      (∀ r', 2 ≤ r' → r' ≤ r → de_boor_omega K t d r' 0 = 0) →
      (∀ r' s, 2 ≤ r' → r' ≤ r → 1 ≤ s → s ≤ r' - 2 → de_boor_omega K t d r' s = 1) →
      ∀ D : ℕ → V3, de_boor_passes K t d r D 0 = D 1 := by
  intro r
  induction r with
  | zero => intro h; omega
  | succ m ih =>
    intro h2 hw0 hw1 D
    cases m with
    | zero => omega
    | succ p =>
      cases p with
      | zero =>
        show de_boor_pass K t d 2 D 0 = D 1
        simp only [de_boor_pass]
        rw [if_pos (by omega), hw0 2 (by omega) (by omega)]
        rw [zero_smul, zero_add, sub_zero, one_smul]
      | succ q =>
        show de_boor_passes K t d (q + 2) (de_boor_pass K t d (q + 3) D) 0 = D 1
        rw [ih (by omega) (fun r' a b => hw0 r' a (by omega))
          (fun r' s a b c e => hw1 r' s a (by omega) c e) _]
        show de_boor_pass K t d (q + 3) D 1 = D 1
        simp only [de_boor_pass]
        rw [if_pos (by omega), hw1 (q + 3) 1 (by omega) (by omega) (by omega) (by omega)]
        rw [one_smul, sub_self, zero_smul, add_zero]

/-- At parameter `0` with span `k - 1`, every clamped-knot blend factor is zero. -/
theorem clamped_omega_zero_at_0 (n k : ℕ) (hk : 1 ≤ k) (hkn : k ≤ n)
    (K : ℕ → ℝ)
    (hK : ∀ p, K p = (((make_knot_vector_np n k false).getD p 0 : ℚ) : ℝ))
    (r s : ℕ) (_h2 : 2 ≤ r) (_hs : s ≤ r - 2) :
    de_boor_omega K 0 (k - 1) r s = 0 := by
  have hKp : K (k - 1 - s) = 0 := by
    rw [hK, clamped_knot_zero n k _ hk hkn (by omega)]
    exact Rat.cast_zero
  simp only [de_boor_omega, hKp]
  split <;> norm_num

/-- At parameter `1` with span `n`, the first blend factor of each pass is zero
(its denominator vanishes among the trailing `1` knots). -/
theorem clamped_omega_zero_at_1 (n k : ℕ) (hk : 1 ≤ k) (hkn : k ≤ n)
    (K : ℕ → ℝ)
    (hK : ∀ p, K p = (((make_knot_vector_np n k false).getD p 0 : ℚ) : ℝ))
    (r : ℕ) (h2 : 2 ≤ r) (hrk : r ≤ k) :
    de_boor_omega K 1 n r 0 = 0 := by
  have hKa : K (n - 0) = 1 := by
    rw [hK, clamped_knot_one n k _ hk hkn (by omega) (by omega)]
    exact Rat.cast_one
  have hKb : K (n - 0 + r - 1) = 1 := by
    rw [hK, clamped_knot_one n k _ hk hkn (by omega) (by omega)]
    exact Rat.cast_one
  simp only [de_boor_omega, hKa, hKb]
  norm_num

/-- At parameter `1` with span `n`, the later blend factors of each pass are one
(provided the uniform interior spacing stays above the `1e-6` guard). -/
theorem clamped_omega_one_at_1 (n k : ℕ) (hk : 1 ≤ k) (hkn : k ≤ n)
    (hq : n - k < 999999)
    (K : ℕ → ℝ)
    (hK : ∀ p, K p = (((make_knot_vector_np n k false).getD p 0 : ℚ) : ℝ))
    (r s : ℕ) (h2 : 2 ≤ r) (hrk : r ≤ k) (hs1 : 1 ≤ s) (hs : s ≤ r - 2) :
    de_boor_omega K 1 n r s = 1 := by
  have hKb : K (n - s + r - 1) = 1 := by
    rw [hK, clamped_knot_one n k _ hk hkn (by omega) (by omega)]
    exact Rat.cast_one
  have hbound : (1e-6 : ℝ) < 1 - K (n - s) := by
    rcases lt_or_le (n - s) k with hcase | hcase
    · rw [hK, clamped_knot_zero n k _ hk hkn hcase]
      norm_num
    · rw [hK, clamped_knot_interior n k _ hcase (by omega)]
      push_cast
      rw [Nat.cast_sub (show s ≤ n by omega)]
      have hQpos : (0 : ℝ) < (n : ℝ) - k + 1 := by
        have : (k : ℝ) ≤ (n : ℝ) := by exact_mod_cast hkn
        linarith
      have hQlt : (n : ℝ) - k + 1 < 1000000 := by
        have h1 : ((n - k : ℕ) : ℝ) < 999999 := by exact_mod_cast hq
        have h2 : ((n - k : ℕ) : ℝ) = (n : ℝ) - k := by
          push_cast [Nat.cast_sub hkn]
          ring
        linarith
      have hs' : (1 : ℝ) ≤ (s : ℝ) := by exact_mod_cast hs1
      rw [show (1e-6 : ℝ) = 1 / 1000000 by norm_num]
      rw [div_lt_iff₀ (by norm_num : (0 : ℝ) < 1000000)]
      have key : 1 - ((n : ℝ) - s - k + 1) / ((n : ℝ) - k + 1) =
          (s : ℝ) / ((n : ℝ) - k + 1) := by
        field_simp
      rw [key, div_mul_eq_mul_div, lt_div_iff₀ hQpos]
      nlinarith
  simp only [de_boor_omega, hKb]
  rw [if_pos hbound]
  exact div_self (ne_of_gt (lt_trans (by norm_num) hbound))

/-- C7: for a clamped (open-topology) surface, De Boor evaluation at the four parameter
corners returns exactly the corresponding corner control point of the (row-major) control
net — in particular it reproduces it within any tolerance.  The size bounds keep the
uniform interior knot spacing above the `1e-6` division guard; the out-of-range gather
reads at `u = 1` or `v = 1` are absorbed by the first blend of each pass, whose factor is
zero, so the result does not depend on them. -/
theorem de_boor_surface_corner_interpolation (b : BSplineSurface)
    (hcyl : b.is_cylinder = false)
    (hu2 : 2 ≤ b.order_u) (hun : b.order_u ≤ b.num_u)
    (hv2 : 2 ≤ b.order_v) (hvn : b.order_v ≤ b.num_v)
    (huq : b.num_u - b.order_u < 999999) (hvq : b.num_v - b.order_v < 999999) :
    b.de_boor_surface 0 0 = b.control_net_field (0 * b.num_v + 0) ∧
    b.de_boor_surface 1 0 = b.control_net_field ((b.num_u - 1) * b.num_v + 0) ∧
    b.de_boor_surface 0 1 = b.control_net_field (0 * b.num_v + (b.num_v - 1)) ∧
    b.de_boor_surface 1 1 =
      b.control_net_field ((b.num_u - 1) * b.num_v + (b.num_v - 1)) := by
  have hUK : ∀ p, b.Uk p =
      (((make_knot_vector_np b.num_u b.order_u false).getD p 0 : ℚ) : ℝ) := by
    intro p
    simp only [BSplineSurface.Uk, BSplineSurface.U_np, hcyl]
  have hVK : ∀ p, b.Vk p =
      (((make_knot_vector_np b.num_v b.order_v false).getD p 0 : ℚ) : ℝ) :=
    fun p => rfl
  have hfu0 : b.find_knot_index_u 0 = b.order_u - 1 := by
    unfold BSplineSurface.find_knot_index_u
    rw [if_pos rfl]
  have hfu1 : b.find_knot_index_u 1 = b.num_u := by
    unfold BSplineSurface.find_knot_index_u
    rw [if_neg one_ne_zero, if_pos rfl]
    show b.U_np.length - b.order_u = b.num_u
    rw [show b.U_np = make_knot_vector_np b.num_u b.order_u b.is_cylinder from rfl, hcyl,
      clamped_knot_length]
    omega
  have hfv0 : b.find_knot_index_v 0 = b.order_v - 1 := by
    unfold BSplineSurface.find_knot_index_v
    rw [if_pos rfl]
  have hfv1 : b.find_knot_index_v 1 = b.num_v := by
    unfold BSplineSurface.find_knot_index_v
    rw [if_neg one_ne_zero, if_pos rfl]
    show b.V_np.length - b.order_v = b.num_v
    rw [show b.V_np = make_knot_vector_np b.num_v b.order_v false from rfl,
      clamped_knot_length]
    omega
  have shiftU := de_boor_passes_all_shift b.Uk 0 (b.order_u - 1) b.order_u (by omega)
    (fun r' s a _ c =>
      clamped_omega_zero_at_0 b.num_u b.order_u (by omega) hun b.Uk hUK r' s a c)
  have shiftV := de_boor_passes_all_shift b.Vk 0 (b.order_v - 1) b.order_v (by omega)
    (fun r' s a _ c =>
      clamped_omega_zero_at_0 b.num_v b.order_v (by omega) hvn b.Vk hVK r' s a c)
  have keepU := de_boor_passes_keep_second b.Uk 1 b.num_u b.order_u hu2
    (fun r' a bb =>
      clamped_omega_zero_at_1 b.num_u b.order_u (by omega) hun b.Uk hUK r' a bb)
    (fun r' s a bb c e =>
      clamped_omega_one_at_1 b.num_u b.order_u (by omega) hun huq b.Uk hUK r' s a bb c e)
  have keepV := de_boor_passes_keep_second b.Vk 1 b.num_v b.order_v hv2
    (fun r' a bb =>
      clamped_omega_zero_at_1 b.num_v b.order_v (by omega) hvn b.Vk hVK r' a bb)
    (fun r' s a bb c e =>
      clamped_omega_one_at_1 b.num_v b.order_v (by omega) hvn hvq b.Vk hVK r' s a bb c e)
  refine ⟨?_, ?_, ?_, ?_⟩
  · simp only [BSplineSurface.de_boor_surface, hcyl, Bool.false_eq_true, if_false,
      hfu0, hfv0, shiftU, shiftV]
    rw [if_pos (show b.order_u - 1 < b.order_u by omega),
      if_pos (show b.order_v - 1 < b.order_v by omega)]
    simp only [Nat.sub_self]
  · simp only [BSplineSurface.de_boor_surface, hcyl, Bool.false_eq_true, if_false,
      hfu1, hfv0, keepU, shiftV]
    rw [if_pos (show 1 < b.order_u by omega),
      if_pos (show b.order_v - 1 < b.order_v by omega)]
    simp only [Nat.sub_self]
  · simp only [BSplineSurface.de_boor_surface, hcyl, Bool.false_eq_true, if_false,
      hfu0, hfv1, shiftU, keepV]
    rw [if_pos (show b.order_u - 1 < b.order_u by omega),
      if_pos (show 1 < b.order_v by omega)]
    simp only [Nat.sub_self]
  · simp only [BSplineSurface.de_boor_surface, hcyl, Bool.false_eq_true, if_false,
      hfu1, hfv1, keepU, keepV]
    rw [if_pos (show 1 < b.order_u by omega),
      if_pos (show 1 < b.order_v by omega)]

/-- C7 witness: the 4×4, order-4 clamped test surface. -/
theorem de_boor_surface_corner_interpolation_witness :
    (corner_surface.is_cylinder = false ∧
      2 ≤ corner_surface.order_u ∧ corner_surface.order_u ≤ corner_surface.num_u ∧
      2 ≤ corner_surface.order_v ∧ corner_surface.order_v ≤ corner_surface.num_v ∧
      corner_surface.num_u - corner_surface.order_u < 999999 ∧
      corner_surface.num_v - corner_surface.order_v < 999999) ∧
    (corner_surface.de_boor_surface 0 0 =
        corner_surface.control_net_field (0 * corner_surface.num_v + 0) ∧
      corner_surface.de_boor_surface 1 0 =
        corner_surface.control_net_field
          ((corner_surface.num_u - 1) * corner_surface.num_v + 0) ∧
      corner_surface.de_boor_surface 0 1 =
        corner_surface.control_net_field
          (0 * corner_surface.num_v + (corner_surface.num_v - 1)) ∧
      corner_surface.de_boor_surface 1 1 =
        corner_surface.control_net_field
          ((corner_surface.num_u - 1) * corner_surface.num_v +
            (corner_surface.num_v - 1))) :=
  ⟨⟨rfl, by decide, by decide, by decide, by decide, by decide, by decide⟩,
    de_boor_surface_corner_interpolation corner_surface rfl (by decide) (by decide)
      (by decide) (by decide) (by decide) (by decide)⟩

/-- C9 witness: a concrete 4×3 net of order 3 with one particle. -/
theorem reorder_control_net_cyl_seam_padding_witness :
    ((3 : ℕ) ≤ 4 ∧ (1 : ℕ) ≤ 1 ∧ (1 : ℕ) < 3 ∧ (0 : ℕ) < 3) ∧
    (cyl_control_net_size 4 3 3 = (4 + 3 - 1) * 3 ∧
      reorder_control_net_np_cyl 4 3 3 [((5 : ℝ), 0, 0)] [(0, 0)] (0 * 3 + 0) =
        reorder_control_net_np_cyl 4 3 3 [((5 : ℝ), 0, 0)] [(0, 0)] ((4 - 1) * 3 + 0) ∧
      reorder_control_net_np_cyl 4 3 3 [((5 : ℝ), 0, 0)] [(0, 0)] ((4 - 1 + 1) * 3 + 0) =
        reorder_control_net_np_cyl 4 3 3 [((5 : ℝ), 0, 0)] [(0, 0)] (1 * 3 + 0)) :=
  ⟨⟨by decide, by decide, by decide, by decide⟩,
    reorder_control_net_cyl_seam_padding 4 3 3 [((5 : ℝ), 0, 0)] [(0, 0)] 1 0
      (by decide) (by decide) (by decide) (by decide)⟩

end Cloth
